import Mathlib

/-!
Verification of the pdfmake render pass (layout-to-drawing-command translation).

The JavaScript source walks a tree of laid-out pages and items and issues
imperative calls to a drawing engine ("Sink", pdfkit).  The shallow embedding
below turns every render function into a pure Lean function that returns the
ordered list of Sink calls it would issue (a trace) together with the possibly
mutated input value; thrown JS exceptions become `Except.error`.  JS numbers
are modelled as `ℚ`; JS `undefined`-able fields as `Option`; JS truthiness of
`x || d` defaults is modelled explicitly (`0`, `""` and `undefined` are falsy).
-/

namespace PdfMake

/-- A 2-D point, as used in polyline point lists. -/
structure Point where
  x : ℚ
  y : ℚ
  deriving Repr, DecidableEq

/-- A JS color value as it flows through `renderVector`: absent (`undefined`),
a color string, a gradient object returned by `pdfKitDoc.linearGradient` with
its registered stops, a two-element pattern marker array, or the resolved
pattern pair produced from the marker. -/
inductive JsColor where
  | undef
  | str (s : String)
  | gradientObj (x1 y1 x2 y2 : ℚ) (stops : List (ℚ × String))
  | patternRef (name : String) (secondary : String)
  | patternObj (handle : Option String) (secondary : String)
  deriving Repr, DecidableEq

/-- JS truthiness of a color value: `undefined` and the empty string are
falsy; objects and arrays (gradient, pattern marker, pattern pair) are truthy. -/
def JsColor.truthy : JsColor → Bool
  | .undef => false
  | .str s => !(s == "")
  | _ => true

/-- JS `v || d` for an optional number (`0` and `undefined` are falsy). -/
def jsOrQ (v : Option ℚ) (d : ℚ) : ℚ :=
  match v with
  | some x => if x = 0 then d else x
  | none => d

/-- JS `v || d` for an optional string (`""` and `undefined` are falsy). -/
def jsOrStr (v : Option String) (d : String) : String :=
  match v with
  | some s => if s = "" then d else s
  | none => d

/-- JS truthiness filter for an optional natural number (`0` is falsy). -/
def natTruthy (v : Option ℕ) : Option ℕ :=
  match v with
  | some n => if n = 0 then none else some n
  | none => none

/-- JS truthiness filter for an optional string (`""` is falsy). -/
def strTruthy (v : Option String) : Option String :=
  match v with
  | some s => if s = "" then none else some s
  | none => none

/-- JS `Number.prototype.toFixed(2)` on a rational, as a rational. -/
def toFixed2 (q : ℚ) : ℚ := (round (q * 100) : ℤ) / 100

/-- Dash descriptor of a vector shape (`vector.dash` in the source). -/
structure Dash where
  len : ℚ
  space : Option ℚ
  phase : Option ℚ
  deriving Repr, DecidableEq

/-- One extended vector instruction (`x-` prefixed type tags), as dispatched
by `renderXVector` in the source. -/
inductive XInstr where
  | saveContext
  | restoreContext
  | rotateContext (angle : ℚ) (origin : Option Point)
  | translateContext (x y : ℚ)
  | scaleContext (scale : ℚ) (origin : Option Point)
  | lineStyle (lineWidth : Option ℚ) (dash : Option Dash)
  | strokeColorSet (c : JsColor) (strokeOpacity : Option ℚ)
  | fillColorSet (c : JsColor) (fillOpacity : Option ℚ)
  | strokePath (c : Option JsColor)
  | fillPath (c : Option JsColor)
  | fillAndStrokePath (fc sc : Option JsColor)
  | moveToI (x y : ℚ)
  | lineToI (x y : ℚ)
  | lineI (x1 y1 x2 y2 : ℚ)
  | rectI (x y width height : ℚ)
  | ellipseI (cx cy rx ry : ℚ)
  | quadraticCurve (start : Option Point) (cpx cpy x2 y2 : ℚ)
  | bezierCurve (start : Option Point) (cpx1 cpy1 cpx2 cpy2 x2 y2 : ℚ)
  | closePathI
  | clipToRect (x y width height : ℚ)
  deriving Repr, DecidableEq

/-- The kind tag and geometry payload of a `VectorShape`
(`vector.type` plus the per-kind fields read by `renderVector`).
`unknown` models a non-`x-` type string outside the switch (silently
tolerated, no geometry emitted). -/
inductive VKind where
  | ellipse (x y r1 r2 : ℚ)
  | rect (x y w h : ℚ) (r : Option ℚ)
  | line (x1 y1 x2 y2 : ℚ)
  | polyline (points : List Point) (closePath : Bool)
  | path (d : String)
  | xvec (instr : XInstr)
  | unknown
  deriving Repr, DecidableEq

/-- Whether the kind tag is an extended (`x-` prefixed) instruction. -/
def VKind.isX : VKind → Bool
  | .xvec _ => true
  | _ => false

/-- A vector shape as consumed by `renderVector`: kind plus the optional
styling fields. -/
structure VectorShape where
  kind : VKind
  lineWidth : Option ℚ
  dash : Option Dash
  lineJoin : Option String
  lineCap : Option String
  color : JsColor
  lineColor : JsColor
  fillOpacity : Option ℚ
  strokeOpacity : Option ℚ
  linearGradient : Option (List String)
  deriving Repr, DecidableEq

/-- One imperative call issued to the drawing engine ("Sink").  The trace of
a render function is the ordered list of these calls.  Delegated external
helpers (text decorator, SVG converter) appear as single opaque events;
annotation payload details not needed by any claim are elided. -/
inductive SinkCall where
  | lineWidth (w : ℚ)
  | dash (len space phase : ℚ)
  | undash
  | lineJoin (j : String)
  | lineCap (c : String)
  | ellipse (x y r1 r2 : ℚ)
  | rect (x y w h : ℚ)
  | roundedRect (x y w h r : ℚ)
  | moveTo (x y : ℚ)
  | lineTo (x y : ℚ)
  | closePath
  | pathD (d : String)
  | linearGradient (x1 y1 x2 y2 : ℚ)
  | gradientStop (t : ℚ) (c : String)
  | fillColor (c : JsColor) (o : ℚ)
  | strokeColor (c : JsColor) (o : ℚ)
  | fillOp (c : Option JsColor)
  | strokeOp (c : Option JsColor)
  | fillAndStrokeOp (c : Option (JsColor × JsColor))
  | opacity (o : ℚ)
  | setFont (f : String)
  | fontSize (s : ℚ)
  | text (t : String) (x y : ℚ)
  | refGoTo (page : ℕ)
  | annotate (x y w h : ℚ) (destPage : ℤ)
  | save
  | restore
  | rotate (angle : ℚ)
  | rotateAt (angle x y : ℚ)
  | translate (x y : ℚ)
  | scaleOne (s : ℚ)
  | scaleOneAt (s x y : ℚ)
  | scaleXYAt (sx sy x y : ℚ)
  | quadraticCurveTo (cpx cpy x y : ℚ)
  | bezierCurveTo (c1x c1y c2x c2y x y : ℚ)
  | clip
  | clipRectContent (x y w h : ℚ)
  | imageOp (name : String) (x y w h : ℚ)
  | imageCover (name : String) (x y w h : ℚ) (align valign : String)
  | linkOp (x y w h : ℚ) (url : String)
  | goTo (x y w h : ℚ) (dest : String)
  | drawBackground
  | drawDecorations
  | svgDraw (x y : ℚ)
  | addPage (w h : ℚ)
  deriving Repr, DecidableEq

/-- Trace of `renderXVector`: each extended instruction maps to exactly the
raw Sink calls named by its tag (line width defaults to 1, dash space
defaults to the dash length, rotation angle is negated and rounded to two
decimals as in `xVecRotateContext` / `docTransformRotate`). -/
def renderXVector : XInstr → List SinkCall
  | .saveContext => [.save]
  | .restoreContext => [.restore]
  | .rotateContext angle origin =>
      match origin with
      | some o => [.rotateAt (toFixed2 (angle * (-1))) o.x o.y]
      | none => [.rotate (toFixed2 (angle * (-1)))]
  | .translateContext x y => [.translate x y]
  | .scaleContext s origin =>
      match origin with
      | some o => [.scaleOneAt s o.x o.y]
      | none => [.scaleOne s]
  | .lineStyle lw d =>
      [.lineWidth (jsOrQ lw 1)] ++
      (match d with
       | some dd => [.dash dd.len (jsOrQ dd.space dd.len) 0]
       | none => [.undash])
  | .strokeColorSet c so => [.strokeColor c (jsOrQ so 1)]
  | .fillColorSet c fo => [.fillColor c (jsOrQ fo 1)]
  | .strokePath c => [.strokeOp c]
  | .fillPath c => [.fillOp c]
  | .fillAndStrokePath fc sc =>
      match fc, sc with
      | some f, some s => [.fillAndStrokeOp (some (f, s))]
      | _, _ => [.fillAndStrokeOp none]
  | .moveToI x y => [.moveTo x y]
  | .lineToI x y => [.lineTo x y]
  | .lineI x1 y1 x2 y2 => [.moveTo x1 y1, .lineTo x2 y2]
  | .rectI x y w h => [.rect x y w h]
  | .ellipseI cx cy rx ry => [.ellipse cx cy rx ry]
  | .quadraticCurve start cpx cpy x2 y2 =>
      (match start with
       | some p => [.moveTo p.x p.y]
       | none => []) ++ [.quadraticCurveTo cpx cpy x2 y2]
  | .bezierCurve start c1x c1y c2x c2y x2 y2 =>
      (match start with
       | some p => [.moveTo p.x p.y]
       | none => []) ++ [.bezierCurveTo c1x c1y c2x c2y x2 y2]
  | .closePathI => [.closePath]
  | .clipToRect x y w h => [.rect x y w h, .clip]

/-- The unconditional styling prefix of `renderVector` for non-extended
shapes: line width (default 1), dash or undash (space defaults to the dash
length, phase to 0), line join (default miter), line cap (default butt). -/
def renderVectorPre (v : VectorShape) : List SinkCall :=
  [.lineWidth (jsOrQ v.lineWidth 1)] ++
  (match v.dash with
   | some d => [.dash d.len (jsOrQ d.space d.len) (jsOrQ d.phase 0)]
   | none => [.undash]) ++
  [.lineJoin (jsOrStr v.lineJoin "miter"), .lineCap (jsOrStr v.lineCap "butt")]

/-- The geometry switch of `renderVector`: path-construction calls for the
shape's kind, together with the coordinates of the linear gradient created
for ellipse/rect when `vector.linearGradient` is present.  A polyline with
zero points emits nothing; it is closed only when it has more than one point
and either the `closePath` flag is set or its first and last points
coincide.  Unknown kinds emit nothing. -/
def vectorGeometry (v : VectorShape) : List SinkCall × Option (ℚ × ℚ × ℚ × ℚ) :=
  match v.kind with
  | .ellipse x y r1 r2 =>
      ([SinkCall.ellipse x y r1 r2] ++
         (if v.linearGradient.isSome then [SinkCall.linearGradient (x - r1) y (x + r1) y] else []),
       if v.linearGradient.isSome then some (x - r1, y, x + r1, y) else none)
  | .rect x y w h r =>
      ((match r with
        | some rv => if rv = 0 then [SinkCall.rect x y w h] else [SinkCall.roundedRect x y w h rv]
        | none => [SinkCall.rect x y w h]) ++
         (if v.linearGradient.isSome then [SinkCall.linearGradient x y (x + w) y] else []),
       if v.linearGradient.isSome then some (x, y, x + w, y) else none)
  | .line x1 y1 x2 y2 => ([.moveTo x1 y1, .lineTo x2 y2], none)
  | .polyline pts cp =>
      (match pts with
       | [] => []
       | p :: rest =>
           [SinkCall.moveTo p.x p.y] ++ rest.map (fun q => SinkCall.lineTo q.x q.y) ++
           (if rest.length > 0 &&
               (cp || ((p.x == (rest.getLastD p).x) && (p.y == (rest.getLastD p).y)))
            then [SinkCall.closePath] else []),
       none)
  | .path d => ([.pathD d], none)
  | .xvec _ => ([], none)
  | .unknown => ([], none)

/-- Gradient stops registered at evenly spaced offsets `i * (1/(n-1))`, as in
the stop loop of `renderVector`.  (For a single-stop list the JS offset is a
division by zero; `ℚ` division by zero yields 0 here, a case no claim
touches.) -/
def gradStops (cols : List String) : List (ℚ × String) :=
  cols.enum.map fun ic => ((ic.1 : ℚ) * (1 / ((cols.length : ℚ) - 1)), ic.2)

/-- The `vector.color = gradient` substitution: when a linear gradient was
requested and a gradient object was created by the geometry switch, the fill
color becomes the gradient object. -/
def afterGradient (v : VectorShape) : VectorShape :=
  match v.linearGradient, (vectorGeometry v).2 with
  | some cols, some (a, b, c, d) =>
      { v with color := JsColor.gradientObj a b c d (gradStops cols) }
  | _, _ => v

/-- The `gradient.stop(...)` calls emitted after the geometry switch. -/
def gradStopCalls (v : VectorShape) : List SinkCall :=
  match v.linearGradient, (vectorGeometry v).2 with
  | some cols, some _ => (gradStops cols).map fun sc => SinkCall.gradientStop sc.1 sc.2
  | _, _ => []

/-- Modelled from the spec: the helpers `isPattern` / `getPattern` live in a
repository module not under `src/`; per the spec a fill color that is a
pattern marker is substituted with the corresponding registered Pattern
object (paired with the marker's secondary color).  Non-marker colors are
left unchanged. -/
def resolveColor (patterns : String → Option String) (c : JsColor) : JsColor :=
  match c with
  | .patternRef name secondary => .patternObj (patterns name) secondary
  | c => c

/-- The paint decision at the end of `renderVector`: both colors set →
fill color, stroke color, one fill-and-stroke; only fill color → fill;
otherwise stroke with the line color defaulting to black.  Opacities
default to 1. -/
def paintCalls (color lineColor : JsColor) (fo so : ℚ) : List SinkCall :=
  if color.truthy && lineColor.truthy then
    [.fillColor color fo, .strokeColor lineColor so, .fillAndStrokeOp none]
  else if color.truthy then
    [.fillColor color fo, .fillOp none]
  else
    [.strokeColor (if lineColor.truthy then lineColor else .str "black") so, .strokeOp none]

/-- `renderVector` for non-extended shapes: styling prefix, geometry,
gradient stops, then the paint decision; returns the trace and the shape
with its (possibly gradient- or pattern-substituted) color. -/
def renderVectorStd (patterns : String → Option String) (v : VectorShape) :
    List SinkCall × VectorShape :=
  let v2 : VectorShape :=
    { afterGradient v with color := resolveColor patterns (afterGradient v).color }
  (renderVectorPre v ++ (vectorGeometry v).1 ++ gradStopCalls v ++
     paintCalls v2.color v2.lineColor (v.fillOpacity.getD 1) (v.strokeOpacity.getD 1),
   v2)

/-- Top-level `renderVector`: extended (`x-`) shapes are dispatched to
`renderXVector` and never touched; all others go through the standard
pipeline. -/
def renderVector (patterns : String → Option String) (v : VectorShape) :
    List SinkCall × VectorShape :=
  match v.kind with
  | .xvec ix => (renderXVector ix, v)
  | _ => renderVectorStd patterns v

/-- Font metrics handle for an inline run (the part of the external font
object read by the renderer: its name and `ascender` metric). -/
structure Font where
  name : String
  ascender : ℚ
  deriving Repr, DecidableEq

/-- One recorded layout position of a referenced node (`positions[i]`). -/
structure PagePosition where
  pageNumber : ℕ
  deriving Repr, DecidableEq

/-- A deferred page-number reference target (`_pageNodeRef`): its `positions`
array is `undefined` until the layout stage registers positions. -/
structure PageNodeRef where
  positions : Option (List PagePosition)
  deriving Repr, DecidableEq

/-- One styled inline run of a laid-out text line. -/
structure Inline where
  text : String
  font : Font
  fontSize : ℚ
  characterSpacing : Option ℚ
  fontFeatures : Option (List String)
  width : ℚ
  height : ℚ
  x : ℚ
  alignment : String
  color : Option String
  opacity : Option ℚ
  link : Option String
  linkToDestination : Option String
  linkToPage : Option ℕ
  sup : Bool
  sub : Bool
  pageNodeRef : Option PageNodeRef
  deriving Repr, DecidableEq

/-- A laid-out text line: inline runs plus line metrics (the source's
`getHeight()` / `getAscenderHeight()` accessors become fields). -/
structure Line where
  inlines : List Inline
  height : ℚ
  ascenderHeight : ℚ
  id : Option String
  pageNodeRef : Option PageNodeRef
  x : Option ℚ
  y : Option ℚ
  deriving Repr, DecidableEq

/-- The text-width measurement service (`TextTools.widthOfString`, an
external collaborator module): text, font, font size, character spacing,
font features → width. -/
def MeasureFn : Type :=
  String → Font → ℚ → Option ℚ → Option (List String) → ℚ

/-- Reading `_pageNodeRef.positions[0].pageNumber`: an `undefined` positions
array throws the deliberate failure; a registered but empty array would make
the JS index access throw a `TypeError`. -/
def refPageNumber (ref : PageNodeRef) : Except String ℕ :=
  match ref.positions with
  | none => .error "Page reference id not found"
  | some [] => .error "TypeError: cannot read pageNumber of undefined"
  | some (p :: _) => .ok p.pageNumber

/-- `preparePageNodeRefLine`: replace the inline text with the decimal string
of the target page number, remeasure the width, and shift the inline x by
the width delta according to its alignment (right: full delta, center: half
delta, otherwise unchanged). -/
def preparePageNodeRefLine (m : MeasureFn) (ref : PageNodeRef) (inline : Inline) :
    Except String Inline := do
  let pn ← refPageNumber ref
  let t := Nat.repr pn
  let newWidth := m t inline.font inline.fontSize inline.characterSpacing inline.fontFeatures
  let diffWidth := inline.width - newWidth
  let i1 : Inline := { inline with text := t, width := newWidth }
  match inline.alignment with
  | "right" => pure { i1 with x := i1.x + diffWidth }
  | "center" => pure { i1 with x := i1.x + diffWidth / 2 }
  | _ => pure i1

/-- `offsetText`: shift the placed baseline y up by `0.75 * fontSize` for a
superscript inline and down by `0.35 * fontSize` for a subscript inline
(the page y axis grows downward, so "up" subtracts).  Both shifts apply
independently when both flags are set. -/
def offsetText (y : ℚ) (inline : Inline) : ℚ :=
  let y1 := if inline.sup then y - inline.fontSize * (3 / 4) else y
  if inline.sub then y1 + inline.fontSize * (7 / 20) else y1

/-- The glyph-placement calls for one inline at line origin `(x, y)` with
the given line metrics, after resolving a per-inline page reference if one
is present: opacity (default 1), fill color (default black), font, font
size, text placement at the baseline-shifted y, and — when a page link is
present — a GoTo action plus link annotation.  Returns the trace and the
possibly mutated inline.  (Annotation option payloads carried inside the
pdfkit `text` options object are elided from the trace.) -/
def renderInline (m : MeasureFn) (x y lineHeight descent : ℚ) (inline : Inline) :
    Except String (List SinkCall × Inline) := do
  let shiftToBaseline := lineHeight - inline.font.ascender / 1000 * inline.fontSize - descent
  let inl ← match inline.pageNodeRef with
    | some ref => preparePageNodeRefLine m ref inline
    | none => pure inline
  let shiftedY := offsetText (y + shiftToBaseline) inl
  let tr : List SinkCall :=
    [.opacity (inl.opacity.getD 1),
     .fillOp (some (.str (jsOrStr inl.color "black"))),
     .setFont inl.font.name,
     .fontSize inl.fontSize,
     .text inl.text (x + inl.x) shiftedY] ++
    (match natTruthy inl.linkToPage with
     | some p => [.refGoTo p, .annotate (x + inl.x) shiftedY inl.width inl.height ((p : ℤ) - 1)]
     | none => [])
  pure (tr, inl)

/-- The per-inline loop of `renderLine`. -/
def renderInlines (m : MeasureFn) (x y lineHeight descent : ℚ) :
    List Inline → Except String (List SinkCall × List Inline)
  | [] => pure ([], [])
  | i :: rest => do
      let (tr, i2) ← renderInline m x y lineHeight descent i
      let (trs, rest2) ← renderInlines m x y lineHeight descent rest
      pure (tr ++ trs, i2 :: rest2)

/-- `renderLine`: resolve a line-level page reference against the first
inline, then emit background decorations, the per-inline glyph calls, and
the foreground decorations.  The two decorator calls are delegated to an
external helper module and appear as opaque events.  Returns the trace and
the line with its mutated inlines. -/
def renderLine (m : MeasureFn) (line : Line) : Except String (List SinkCall × Line) := do
  let inlines0 ← match line.pageNodeRef with
    | some ref =>
        match line.inlines with
        | [] =>
            match refPageNumber ref with
            | .error e => .error e
            | .ok _ => .error "TypeError: cannot set property of undefined"
        | i0 :: rest => do
            let i0n ← preparePageNodeRefLine m ref i0
            pure (i0n :: rest)
    | none => pure line.inlines
  let x := jsOrQ line.x 0
  let y := jsOrQ line.y 0
  let lineHeight := line.height
  let descent := lineHeight - line.ascenderHeight
  let (trs, inlines1) ← renderInlines m x y lineHeight descent inlines0
  pure (SinkCall.drawBackground :: trs ++ [SinkCall.drawDecorations],
        { line with inlines := inlines1 })

/-- Cover-fit box of an image (`image.cover`). -/
structure CoverFit where
  align : Option String
  valign : Option String
  width : Option ℚ
  height : Option ℚ
  deriving Repr, DecidableEq

/-- A placed raster image. -/
structure Image where
  image : String
  x : ℚ
  y : ℚ
  width : ℚ
  height : ℚ
  resolvedWidth : ℚ
  resolvedHeight : ℚ
  opacity : Option ℚ
  xImage : Bool
  cover : Option CoverFit
  link : Option String
  linkToPage : Option ℕ
  linkToDestination : Option String
  rotation : ℚ
  rotationOrigin : Option Point
  xImageFlipH : Bool
  xImageFlipV : Bool
  deriving Repr, DecidableEq

/-- `docTransformRotate`: rotate by the negated angle rounded to two
decimals, about an explicit origin when one is given. -/
def docTransformRotate (angle : ℚ) (origin : Option Point) : List SinkCall :=
  match origin with
  | some o => [.rotateAt (toFixed2 (angle * (-1))) o.x o.y]
  | none => [.rotate (toFixed2 (angle * (-1)))]

/-- `renderXImage`: save, optional rotation, optional flip via negative
scale about the image center, placement, restore. -/
def renderXImage (img : Image) : List SinkCall :=
  [SinkCall.save] ++
  (if img.rotation ≠ 0 then docTransformRotate img.rotation img.rotationOrigin else []) ++
  (if img.xImageFlipV || img.xImageFlipH then
     [SinkCall.scaleXYAt (if img.xImageFlipH then -1 else 1) (if img.xImageFlipV then -1 else 1)
        (img.x + img.resolvedWidth / 2) (img.y + img.resolvedHeight / 2)]
   else []) ++
  [SinkCall.imageOp img.image img.x img.y img.resolvedWidth img.resolvedHeight,
   SinkCall.restore]

/-- `renderImage`: set opacity (default 1), then extended / cover / plain
placement, then the optional link, page-link annotation and named
destination. -/
def renderImage (img : Image) : List SinkCall :=
  [SinkCall.opacity (img.opacity.getD 1)] ++
  (if img.xImage then renderXImage img
   else
     match img.cover with
     | some cv =>
         let align := jsOrStr cv.align "center"
         let valign := jsOrStr cv.valign "center"
         let w := jsOrQ cv.width img.width
         let h := jsOrQ cv.height img.height
         [SinkCall.save, SinkCall.rect img.x img.y w h, SinkCall.clip,
          SinkCall.imageCover img.image img.x img.y w h align valign, SinkCall.restore]
     | none => [SinkCall.imageOp img.image img.x img.y img.resolvedWidth img.resolvedHeight]) ++
  (match strTruthy img.link with
   | some u => [SinkCall.linkOp img.x img.y img.resolvedWidth img.resolvedHeight u]
   | none => []) ++
  (match natTruthy img.linkToPage with
   | some p => [SinkCall.refGoTo p,
                SinkCall.annotate img.x img.y img.resolvedWidth img.resolvedHeight ((p : ℤ) - 1)]
   | none => []) ++
  (match strTruthy img.linkToDestination with
   | some d => [SinkCall.goTo img.x img.y img.resolvedWidth img.resolvedHeight d]
   | none => [])

/-- A page watermark (text pre-measured by the caller into `_size.size`). -/
structure Watermark where
  text : String
  font : Font
  fontSize : ℚ
  color : String
  opacity : ℚ
  angle : ℚ
  sizeW : ℚ
  sizeH : ℚ
  deriving Repr, DecidableEq

/-- `renderWatermark` on a physical page of size `pw × ph`: fill color and
opacity are set, then a save/rotate bracket centers and places the text and
restores.  The fill and opacity calls precede the save. -/
def renderWatermark (w : Watermark) (pw ph : ℚ) : List SinkCall :=
  [.fillOp (some (.str w.color)),
   .opacity w.opacity,
   .save,
   .rotateAt w.angle (pw / 2) (ph / 2),
   .setFont w.font.name,
   .fontSize w.fontSize,
   .text w.text (pw / 2 - w.sizeW / 2) (ph / 2 - w.sizeH / 2),
   .restore]

/-- An SVG item: delegated whole to the external SVG-to-drawing-commands
converter, which appears as one opaque event. -/
structure SvgItem where
  svg : String
  x : ℚ
  y : ℚ
  deriving Repr, DecidableEq

/-- The clip rectangle of a `beginClip` item. -/
structure ClipRect where
  x : ℚ
  y : ℚ
  width : ℚ
  height : ℚ
  deriving Repr, DecidableEq

/-- One paintable unit of a page (`item.type` tagged union); `unknownItem`
models a type tag outside the switch (silently ignored). -/
inductive RenderItem where
  | vector (v : VectorShape)
  | line (l : Line)
  | image (img : Image)
  | svg (s : SvgItem)
  | beginClipItem (r : ClipRect)
  | endClipItem
  | unknownItem
  deriving Repr, DecidableEq

/-- The item dispatch switch of `renderPages`: each item is rendered by the
matching renderer; `beginClip` emits save + raw clip-rectangle path + clip,
`endClip` emits restore.  Returns the trace and the possibly mutated item. -/
def renderItem (m : MeasureFn) (patterns : String → Option String) :
    RenderItem → Except String (List SinkCall × RenderItem)
  | .vector v =>
      let (tr, v2) := renderVector patterns v
      pure (tr, .vector v2)
  | .line l => do
      let (tr, l2) ← renderLine m l
      pure (tr, .line l2)
  | .image img => pure (renderImage img, .image img)
  | .svg s => pure ([.svgDraw s.x s.y], .svg s)
  | .beginClipItem r =>
      pure ([.save, .clipRectContent r.x r.y r.width r.height, .clip], .beginClipItem r)
  | .endClipItem => pure ([.restore], .endClipItem)
  | .unknownItem => pure ([], .unknownItem)

/-- Page orientation tag. -/
inductive Orientation where
  | portrait
  | landscape
  deriving Repr, DecidableEq

/-- Declared size and orientation of a laid-out page. -/
structure PageSize where
  width : ℚ
  height : ℚ
  orientation : Orientation
  deriving Repr, DecidableEq

/-- One laid-out page: size descriptor, ordered items, optional watermark. -/
structure Page where
  pageSize : PageSize
  items : List RenderItem
  watermark : Option Watermark
  deriving Repr, DecidableEq

/-- The Sink's configured page size (`pdfKitDoc.options.size`). -/
structure DocOptions where
  sizeW : ℚ
  sizeH : ℚ
  deriving Repr, DecidableEq

/-- The orientation implied by the configured width/height
(width > height means landscape). -/
def impliedOrientation (o : DocOptions) : Orientation :=
  if o.sizeW > o.sizeH then .landscape else .portrait

/-- `updatePageOrientationInOptions`: swap the configured width and height
when the page's declared orientation differs from the orientation implied
by the currently configured size. -/
def updatePageOrientationInOptions (page : Page) (o : DocOptions) : DocOptions :=
  if page.pageSize.orientation ≠ impliedOrientation o then ⟨o.sizeH, o.sizeW⟩ else o

/-- The per-page item loop: renders each item in order, counting rendered
items and recording the progress fraction `rendered / total` passed to the
progress callback after each item. -/
def renderItems (m : MeasureFn) (patterns : String → Option String) (total : ℚ) :
    List RenderItem → ℕ → Except String (List SinkCall × List ℚ × ℕ × List RenderItem)
  | [], r => pure ([], [], r, [])
  | it :: rest, r => do
      let (tr, it2) ← renderItem m patterns it
      let r1 := r + 1
      let (trs, ps, rEnd, rest2) ← renderItems m patterns total rest r1
      pure (tr ++ trs, ((r1 : ℚ) / total) :: ps, rEnd, it2 :: rest2)

/-- The body of the page loop for one page whose physical page was created
with configured size `o`: all items in order, then the watermark (if any)
on the `o`-sized physical page. -/
def renderOnePage (m : MeasureFn) (patterns : String → Option String) (total : ℚ)
    (o : DocOptions) (page : Page) (r : ℕ) :
    Except String (List SinkCall × List ℚ × ℕ × Page) := do
  let (tr, ps, r2, items2) ← renderItems m patterns total page.items r
  let wmTr : List SinkCall :=
    match page.watermark with
    | some w => renderWatermark w o.sizeW o.sizeH
    | none => []
  pure (tr ++ wmTr, ps, r2, { page with items := items2 })

/-- The page loop for pages after the first: each iteration runs the
orientation update on the configured size, requests a new physical page at
that size, and renders the page body. -/
def renderRest (m : MeasureFn) (patterns : String → Option String) (total : ℚ) :
    List Page → DocOptions → ℕ →
    Except String (List SinkCall × List ℚ × DocOptions × ℕ × List Page)
  | [], o, r => pure ([], [], o, r, [])
  | pg :: rest, o, r => do
      let o2 := updatePageOrientationInOptions pg o
      let (tr, ps, r2, pg2) ← renderOnePage m patterns total o2 pg r
      let (trs, pss, oEnd, rEnd, rest2) ← renderRest m patterns total rest o2 r2
      pure (SinkCall.addPage o2.sizeW o2.sizeH :: tr ++ trs, ps ++ pss, oEnd, rEnd, pg2 :: rest2)

/-- Result of the render pass: the full Sink call trace, the arguments
passed to a supplied progress callback, the final configured size, and the
(possibly mutated) page list. -/
structure RenderOutput where
  trace : List SinkCall
  progress : List ℚ
  options : DocOptions
  pages : List Page
  deriving Repr, DecidableEq

/-- `renderPages`: an initial physical page is requested unconditionally at
the configured size, the first laid-out page (if any) is rendered onto it,
and every later page runs the orientation update before its own physical
page is requested.  When a progress callback is supplied the total item
count is summed up front and the callback receives `rendered / total` after
every item (the default no-op callback records nothing). -/
def renderPages (m : MeasureFn) (patterns : String → Option String) (hasCb : Bool)
    (o0 : DocOptions) (pages : List Page) : Except String RenderOutput := do
  let totalN := (pages.map (fun p => p.items.length)).sum
  let total : ℚ := if hasCb then (totalN : ℚ) else 0
  match pages with
  | [] =>
      pure { trace := [SinkCall.addPage o0.sizeW o0.sizeH], progress := [],
             options := o0, pages := [] }
  | pg0 :: rest => do
      let (tr0, ps0, r0, pg0n) ← renderOnePage m patterns total o0 pg0 0
      let (trs, pss, oEnd, rEnd, restN) ← renderRest m patterns total rest o0 r0
      let _ := rEnd
      pure { trace := SinkCall.addPage o0.sizeW o0.sizeH :: tr0 ++ trs,
             progress := if hasCb then ps0 ++ pss else [],
             options := oEnd,
             pages := pg0n :: restN }

/-- Is a call a fill-and-stroke paint call? -/
def SinkCall.isFillAndStrokeCall : SinkCall → Bool
  | .fillAndStrokeOp _ => true
  | _ => false

/-- Is a call a plain fill paint call? -/
def SinkCall.isFillCall : SinkCall → Bool
  | .fillOp _ => true
  | _ => false

/-- Is a call a plain stroke paint call? -/
def SinkCall.isStrokeCall : SinkCall → Bool
  | .strokeOp _ => true
  | _ => false

/-- Is a call a path-construction call (geometry added to the current
path)? -/
def SinkCall.isPathConstruction : SinkCall → Bool
  | .moveTo _ _ => true
  | .lineTo _ _ => true
  | .closePath => true
  | .rect _ _ _ _ => true
  | .roundedRect _ _ _ _ _ => true
  | .ellipse _ _ _ _ => true
  | .pathD _ => true
  | .quadraticCurveTo _ _ _ _ => true
  | .bezierCurveTo _ _ _ _ _ _ => true
  | .clipRectContent _ _ _ _ => true
  | _ => false

/-- The sizes at which physical pages were requested, in trace order. -/
def addPageSizes (tr : List SinkCall) : List (ℚ × ℚ) :=
  tr.filterMap fun c =>
    match c with
    | .addPage w h => some (w, h)
    | _ => none

/-- The configured sizes the page loop would use, one per page: the first
physical page uses the initial configured size unchanged; every later page
first runs the orientation update on the running size. -/
def configuredSizesFrom (o : DocOptions) : List Page → List (ℚ × ℚ)
  | [] => []
  | pg :: rest =>
      let o2 := updatePageOrientationInOptions pg o
      (o2.sizeW, o2.sizeH) :: configuredSizesFrom o2 rest

/-- Configured size of each physical page, starting from `o0`. -/
def configuredSizes (o0 : DocOptions) : List Page → List (ℚ × ℚ)
  | [] => []
  | _ :: rest => (o0.sizeW, o0.sizeH) :: configuredSizesFrom o0 rest

/-- Modelled from the spec: the Sink (the external drawing engine) keeps a
graphics state with the current fill color and opacity and a save/restore
stack; `fill(color)` and `fillColor` set the fill color, `opacity` sets the
opacity, `save` pushes the current state and `restore` pops it (a restore
with an empty stack is a no-op).  All other calls leave this state
unchanged. -/
structure GraphicsState where
  fillColorV : JsColor
  opacityV : ℚ
  deriving Repr, DecidableEq

/-- The Sink's fill-color/opacity state plus its save/restore stack. -/
structure SinkState where
  current : GraphicsState
  stack : List GraphicsState
  deriving Repr, DecidableEq

/-- Execute one Sink call on the graphics state. -/
def execCall (s : SinkState) : SinkCall → SinkState
  | .fillOp (some c) => { s with current := { s.current with fillColorV := c } }
  | .fillColor c o => { s with current := { fillColorV := c, opacityV := o } }
  | .opacity o => { s with current := { s.current with opacityV := o } }
  | .save => { s with stack := s.current :: s.stack }
  | .restore =>
      match s.stack with
      | g :: rest => { current := g, stack := rest }
      | [] => s
  | _ => s

/-- Execute a trace of Sink calls left to right. -/
def execCalls (tr : List SinkCall) (s : SinkState) : SinkState :=
  tr.foldl execCall s

/-- An inline may change only in its displayed text, its remeasured width
and its alignment-shifted x position. -/
def inlineFrame (i i2 : Inline) : Prop :=
  i2 = { i with text := i2.text, width := i2.width, x := i2.x }

/-- A vector shape may change only in its fill color, and only when a
linear gradient was requested or the fill color was a pattern marker. -/
def vectorFrame (v v2 : VectorShape) : Prop :=
  v2 = { v with color := v2.color } ∧
  (v2.color ≠ v.color →
    v.linearGradient.isSome = true ∨ ∃ n s, v.color = JsColor.patternRef n s)

/-- What the render pass may change in one item: nothing, except the
page-reference mutation of inlines and the fill-color substitution of
vector shapes. -/
def itemFrame : RenderItem → RenderItem → Prop
  | .vector v, .vector v2 => vectorFrame v v2
  | .line l, .line l2 =>
      l2 = { l with inlines := l2.inlines } ∧ List.Forall₂ inlineFrame l.inlines l2.inlines
  | it, it2 => it = it2

/-- A concrete width-measurement function used in witnesses: one unit per
character. -/
def m0 : MeasureFn := fun t _ _ _ _ => (t.length : ℚ)

/-- A concrete empty pattern registry used in witnesses. -/
def pats0 : String → Option String := fun _ => none

/-- Evaluation of `preparePageNodeRefLine` when the target has at least one
registered position. -/
theorem preparePageNodeRefLine_eq (m : MeasureFn) (ref : PageNodeRef) (inline : Inline)
    (p : PagePosition) (rest : List PagePosition)
    (h : ref.positions = some (p :: rest)) :
    preparePageNodeRefLine m ref inline = Except.ok
      { inline with
          text := Nat.repr p.pageNumber,
          width := m (Nat.repr p.pageNumber) inline.font inline.fontSize
                     inline.characterSpacing inline.fontFeatures,
          x := inline.x +
            (if inline.alignment = "right" then
               inline.width - m (Nat.repr p.pageNumber) inline.font inline.fontSize
                 inline.characterSpacing inline.fontFeatures
             else if inline.alignment = "center" then
               (inline.width - m (Nat.repr p.pageNumber) inline.font inline.fontSize
                 inline.characterSpacing inline.fontFeatures) / 2
             else 0) } := by
  simp only [preparePageNodeRefLine, refPageNumber, h]
  split <;> simp_all [Inline.mk.injEq]

/-- C3: resolving a page-number reference replaces the inline text with the
decimal page-number string, remeasures the width, and shifts the x position
by the full width delta for right alignment, half the delta for center
alignment, and not at all otherwise. -/
theorem c3_page_ref_alignment (m : MeasureFn) (ref : PageNodeRef) (inline : Inline)
    (p : PagePosition) (rest : List PagePosition)
    (h : ref.positions = some (p :: rest)) :
    preparePageNodeRefLine m ref inline = Except.ok
      { inline with
          text := Nat.repr p.pageNumber,
          width := m (Nat.repr p.pageNumber) inline.font inline.fontSize
                     inline.characterSpacing inline.fontFeatures,
          x := inline.x +
            (if inline.alignment = "right" then
               inline.width - m (Nat.repr p.pageNumber) inline.font inline.fontSize
                 inline.characterSpacing inline.fontFeatures
             else if inline.alignment = "center" then
               (inline.width - m (Nat.repr p.pageNumber) inline.font inline.fontSize
                 inline.characterSpacing inline.fontFeatures) / 2
             else 0) } :=
  preparePageNodeRefLine_eq m ref inline p rest h

/-- A concrete right-aligned inline fixture for witnesses: placeholder text
three characters wide at x = 5. -/
def inlineR : Inline :=
  { text := "@@@", font := ⟨"Roboto", 718⟩, fontSize := 12,
    characterSpacing := none, fontFeatures := none,
    width := 3, height := 12, x := 5, alignment := "right",
    color := none, opacity := none, link := none, linkToDestination := none,
    linkToPage := none, sup := false, sub := false,
    pageNodeRef := none }

/-- A concrete reference fixture resolved to page 7. -/
def refSeven : PageNodeRef := ⟨some [⟨7⟩]⟩

theorem c3_page_ref_alignment_witness :
    preparePageNodeRefLine m0 refSeven inlineR =
      Except.ok { inlineR with text := "7", width := 1, x := 7 } := by
  rw [c3_page_ref_alignment m0 refSeven inlineR ⟨7⟩ [] rfl]
  refine congrArg Except.ok ?_
  simp only [inlineR, m0, refSeven]
  norm_num [Nat.repr, Nat.toDigits, Nat.toDigitsCore, Nat.digitChar,
    List.asString, Inline.mk.injEq]

/-- C4: resolving a reference succeeds (no throw) exactly when the target
has a recorded position; an unregistered (undefined) positions array throws
the deliberate failure, aborting the render pass. -/
theorem c4_page_ref_resolution (m : MeasureFn) (ref : PageNodeRef) (inline : Inline) :
    ((∃ i2, preparePageNodeRefLine m ref inline = Except.ok i2) ↔
      ∃ p rest, ref.positions = some (p :: rest)) ∧
    (ref.positions = none →
      preparePageNodeRefLine m ref inline = Except.error "Page reference id not found") := by
  have herrs : ∀ e, refPageNumber ref = Except.error e →
      preparePageNodeRefLine m ref inline = Except.error e := by
    intro e he
    unfold preparePageNodeRefLine
    rw [he]
    rfl
  constructor
  · constructor
    · rintro ⟨i2, hi⟩
      rcases href : ref.positions with _ | ps
      · rw [herrs "Page reference id not found"
            (by simp [refPageNumber, href])] at hi
        exact absurd hi (by simp)
      · rcases ps with _ | ⟨p, rest⟩
        · rw [herrs "TypeError: cannot read pageNumber of undefined"
              (by simp [refPageNumber, href])] at hi
          exact absurd hi (by simp)
        · exact ⟨p, rest, rfl⟩
    · rintro ⟨p, rest, href⟩
      rw [preparePageNodeRefLine_eq m ref inline p rest href]
      exact ⟨_, rfl⟩
  · intro hnone
    exact herrs "Page reference id not found" (by simp [refPageNumber, hnone])

/-- A concrete reference fixture with no registered positions. -/
def refNone : PageNodeRef := ⟨none⟩

theorem c4_page_ref_resolution_witness :
    (∃ i2, preparePageNodeRefLine m0 refSeven inlineR = Except.ok i2) ∧
    preparePageNodeRefLine m0 refNone inlineR =
      Except.error "Page reference id not found" :=
  ⟨(c4_page_ref_resolution m0 refSeven inlineR).1.mpr ⟨⟨7⟩, [], rfl⟩,
   (c4_page_ref_resolution m0 refNone inlineR).2 rfl⟩

/-- C5: the placed baseline y is shifted up (toward smaller y, the page y
axis growing downward) by `0.75 * fontSize` for a superscript inline and
down by `0.35 * fontSize` for a subscript inline, the two shifts applying
independently and additively; at fontSize 10 the shifts are exactly 7.5 up
and 3.5 down. -/
theorem c5_sup_sub_offset (y : ℚ) (i : Inline) :
    (offsetText y i = y - (if i.sup then i.fontSize * (3 / 4) else 0)
                        + (if i.sub then i.fontSize * (7 / 20) else 0)) ∧
    (i.fontSize = 10 → i.sup = true → i.sub = false → offsetText y i = y - 15 / 2) ∧
    (i.fontSize = 10 → i.sub = true → i.sup = false → offsetText y i = y + 7 / 2) := by
  refine ⟨?_, ?_, ?_⟩
  · unfold offsetText
    cases hsup : i.sup <;> cases hsub : i.sub <;> simp [hsup, hsub]
  · intro hf hs hb
    unfold offsetText
    rw [hf, hs, hb]
    norm_num
  · intro hf hb hs
    unfold offsetText
    rw [hf, hs, hb]
    norm_num

/-- A concrete superscript inline at fontSize 10. -/
def inlineSup : Inline := { inlineR with fontSize := 10, sup := true }

/-- A concrete subscript inline at fontSize 10. -/
def inlineSub : Inline := { inlineR with fontSize := 10, sub := true }

theorem c5_sup_sub_offset_witness :
    offsetText 100 inlineSup = 100 - 15 / 2 ∧ offsetText 100 inlineSub = 100 + 7 / 2 :=
  ⟨(c5_sup_sub_offset 100 inlineSup).2.1 rfl rfl rfl,
   (c5_sup_sub_offset 100 inlineSub).2.2 rfl rfl rfl⟩

/-- C10: the watermark's fill-color and opacity calls are emitted before
the save that opens its save/restore bracket, so after the bracket's
restore the Sink's graphics state still carries the watermark's fill color
and opacity (they persist into the next page's items) while the save stack
is back to where it started. -/
theorem c10_watermark_state_persistence (w : Watermark) (pw ph : ℚ) (s : SinkState) :
    renderWatermark w pw ph =
      [SinkCall.fillOp (some (.str w.color)), SinkCall.opacity w.opacity, SinkCall.save] ++
      [SinkCall.rotateAt w.angle (pw / 2) (ph / 2), SinkCall.setFont w.font.name,
       SinkCall.fontSize w.fontSize,
       SinkCall.text w.text (pw / 2 - w.sizeW / 2) (ph / 2 - w.sizeH / 2),
       SinkCall.restore] ∧
    (execCalls (renderWatermark w pw ph) s).current =
      ⟨JsColor.str w.color, w.opacity⟩ ∧
    (execCalls (renderWatermark w pw ph) s).stack = s.stack :=
  ⟨rfl, rfl, rfl⟩

/-- Is a call anything but a paint (fill / stroke / fill-and-stroke)
call? -/
def SinkCall.notPaint : SinkCall → Bool
  | .fillOp _ => false
  | .strokeOp _ => false
  | .fillAndStrokeOp _ => false
  | _ => true

/-- A non-paint call is neither a fill, a stroke, nor a fill-and-stroke. -/
theorem notPaint_spec (c : SinkCall) (h : c.notPaint = true) :
    c.isFillCall = false ∧ c.isStrokeCall = false ∧ c.isFillAndStrokeCall = false := by
  cases c <;> first | exact ⟨rfl, rfl, rfl⟩ | simp [SinkCall.notPaint] at h

/-- No call of the pre-geometry styling prefix, the geometry switch or the
gradient stop loop is a paint call. -/
theorem vector_core_all_notPaint (v : VectorShape) :
    (renderVectorPre v ++ (vectorGeometry v).1 ++ gradStopCalls v).all
      SinkCall.notPaint = true := by
  simp only [List.all_append, Bool.and_eq_true]
  refine ⟨⟨?_, ?_⟩, ?_⟩
  · unfold renderVectorPre
    cases hd : v.dash <;> rfl
  · unfold vectorGeometry
    rcases hk : v.kind with ⟨x, y, r1, r2⟩ | ⟨x, y, w, h, r⟩ | ⟨x1, y1, x2, y2⟩ |
      ⟨pts, cp⟩ | d | ix | _
    · cases hgl : v.linearGradient.isSome <;> rfl
    · rcases hr : r with _ | rv
      · cases hgl : v.linearGradient.isSome <;> rfl
      · by_cases hrv : rv = 0 <;> cases hgl : v.linearGradient.isSome <;>
          simp only [if_pos, if_neg, hrv, hgl] <;> rfl
    · rfl
    · rcases pts with _ | ⟨p, rest⟩
      · rfl
      · refine List.all_eq_true.mpr fun c hc => ?_
        rcases List.mem_append.1 hc with hml | hcl
        · rcases List.mem_append.1 hml with hm | hl
          · rcases List.mem_cons.1 hm with rfl | hnil
            · rfl
            · exact absurd hnil (List.not_mem_nil c)
          · rcases List.mem_map.1 hl with ⟨q, hq, rfl⟩
            rfl
        · split at hcl
          · rcases List.mem_cons.1 hcl with rfl | hnil
            · rfl
            · exact absurd hnil (List.not_mem_nil c)
          · exact absurd hcl (List.not_mem_nil c)
    · rfl
    · rfl
    · rfl
  · unfold gradStopCalls
    split
    · refine List.all_eq_true.mpr fun c hc => ?_
      rcases List.mem_map.1 hc with ⟨sc, hsc, rfl⟩
      rfl
    · rfl

/-- The styling/geometry/gradient part of the trace contains no paint
call. -/
theorem vector_core_counts (v : VectorShape) :
    (renderVectorPre v ++ (vectorGeometry v).1 ++ gradStopCalls v).countP
      SinkCall.isFillCall = 0 ∧
    (renderVectorPre v ++ (vectorGeometry v).1 ++ gradStopCalls v).countP
      SinkCall.isStrokeCall = 0 ∧
    (renderVectorPre v ++ (vectorGeometry v).1 ++ gradStopCalls v).countP
      SinkCall.isFillAndStrokeCall = 0 := by
  have hall := List.all_eq_true.1 (vector_core_all_notPaint v)
  refine ⟨List.countP_eq_zero.2 fun c hc => ?_,
          List.countP_eq_zero.2 fun c hc => ?_,
          List.countP_eq_zero.2 fun c hc => ?_⟩
  · simp [(notPaint_spec c (hall c hc)).1]
  · simp [(notPaint_spec c (hall c hc)).2.1]
  · simp [(notPaint_spec c (hall c hc)).2.2]

/-- The gradient substitution and pattern resolution never touch the line
color and opacities. -/
theorem afterGradient_fields (v : VectorShape) :
    (afterGradient v).lineColor = v.lineColor ∧
    (afterGradient v).fillOpacity = v.fillOpacity ∧
    (afterGradient v).strokeOpacity = v.strokeOpacity := by
  unfold afterGradient
  split <;> exact ⟨rfl, rfl, rfl⟩

/-- For a non-extended shape the trace decomposes as styling prefix,
geometry, gradient stops, then the paint decision on the substituted
color. -/
theorem renderVector_decomp (patterns : String → Option String) (v : VectorShape)
    (hx : v.kind.isX = false) :
    (renderVector patterns v).1 =
      renderVectorPre v ++ (vectorGeometry v).1 ++ gradStopCalls v ++
        paintCalls (renderVector patterns v).2.color v.lineColor
          (v.fillOpacity.getD 1) (v.strokeOpacity.getD 1) := by
  have hlc := (afterGradient_fields v).1
  have hstd : renderVector patterns v = renderVectorStd patterns v := by
    rcases hk : v.kind <;> simp only [renderVector, hk] <;> simp_all [VKind.isX]
  rw [hstd]
  unfold renderVectorStd
  dsimp only
  rw [hlc]

/-- Paint decision, both colors set. -/
theorem paintCalls_both (c lc : JsColor) (fo so : ℚ)
    (h1 : c.truthy = true) (h2 : lc.truthy = true) :
    paintCalls c lc fo so =
      [.fillColor c fo, .strokeColor lc so, .fillAndStrokeOp none] := by
  unfold paintCalls
  simp [h1, h2]

/-- Paint decision, only the fill color set. -/
theorem paintCalls_fillOnly (c lc : JsColor) (fo so : ℚ)
    (h1 : c.truthy = true) (h2 : lc.truthy = false) :
    paintCalls c lc fo so = [.fillColor c fo, .fillOp none] := by
  unfold paintCalls
  simp [h1, h2]

/-- Paint decision, fill color not set. -/
theorem paintCalls_strokeOnly (c lc : JsColor) (fo so : ℚ)
    (h1 : c.truthy = false) :
    paintCalls c lc fo so =
      [.strokeColor (if lc.truthy then lc else .str "black") so, .strokeOp none] := by
  unfold paintCalls
  simp [h1]

/-- C1: for every non-extended vector shape, after path construction the
paint decision is exact: both (post-substitution) fill color and line color
set → one fill-and-stroke call (fill color set first, then stroke color,
opacities defaulting to 1) and no separate fill or stroke; only the fill
color set → one fill call; otherwise one stroke call, the stroke color
defaulting to black. -/
theorem c1_paint_decision (patterns : String → Option String) (v : VectorShape)
    (hx : v.kind.isX = false) :
    ((renderVector patterns v).2.color.truthy = true → v.lineColor.truthy = true →
      (renderVector patterns v).1.countP SinkCall.isFillAndStrokeCall = 1 ∧
      (renderVector patterns v).1.countP SinkCall.isFillCall = 0 ∧
      (renderVector patterns v).1.countP SinkCall.isStrokeCall = 0 ∧
      (renderVector patterns v).1 =
        renderVectorPre v ++ (vectorGeometry v).1 ++ gradStopCalls v ++
          [SinkCall.fillColor (renderVector patterns v).2.color (v.fillOpacity.getD 1),
           SinkCall.strokeColor v.lineColor (v.strokeOpacity.getD 1),
           SinkCall.fillAndStrokeOp none]) ∧
    ((renderVector patterns v).2.color.truthy = true → v.lineColor.truthy = false →
      (renderVector patterns v).1.countP SinkCall.isFillAndStrokeCall = 0 ∧
      (renderVector patterns v).1.countP SinkCall.isFillCall = 1 ∧
      (renderVector patterns v).1.countP SinkCall.isStrokeCall = 0 ∧
      (renderVector patterns v).1 =
        renderVectorPre v ++ (vectorGeometry v).1 ++ gradStopCalls v ++
          [SinkCall.fillColor (renderVector patterns v).2.color (v.fillOpacity.getD 1),
           SinkCall.fillOp none]) ∧
    ((renderVector patterns v).2.color.truthy = false →
      (renderVector patterns v).1.countP SinkCall.isFillAndStrokeCall = 0 ∧
      (renderVector patterns v).1.countP SinkCall.isFillCall = 0 ∧
      (renderVector patterns v).1.countP SinkCall.isStrokeCall = 1 ∧
      (renderVector patterns v).1 =
        renderVectorPre v ++ (vectorGeometry v).1 ++ gradStopCalls v ++
          [SinkCall.strokeColor
             (if v.lineColor.truthy then v.lineColor else JsColor.str "black")
             (v.strokeOpacity.getD 1),
           SinkCall.strokeOp none]) := by
  have hdec := renderVector_decomp patterns v hx
  have hcore := vector_core_counts v
  refine ⟨fun h1 h2 => ?_, fun h1 h2 => ?_, fun h1 => ?_⟩
  · rw [hdec, paintCalls_both _ _ _ _ h1 h2]
    refine ⟨?_, ?_, ?_, rfl⟩ <;>
      rw [List.countP_append] <;>
      [rw [hcore.2.2]; rw [hcore.1]; rw [hcore.2.1]] <;>
      rfl
  · rw [hdec, paintCalls_fillOnly _ _ _ _ h1 h2]
    refine ⟨?_, ?_, ?_, rfl⟩ <;>
      rw [List.countP_append] <;>
      [rw [hcore.2.2]; rw [hcore.1]; rw [hcore.2.1]] <;>
      rfl
  · rw [hdec, paintCalls_strokeOnly _ _ _ _ h1]
    refine ⟨?_, ?_, ?_, rfl⟩ <;>
      rw [List.countP_append] <;>
      [rw [hcore.2.2]; rw [hcore.1]; rw [hcore.2.1]] <;>
      rfl

/-- A concrete shape with both fill and line colors set. -/
def vBoth : VectorShape :=
  { kind := .line 0 0 5 5, lineWidth := none, dash := none, lineJoin := none,
    lineCap := none, color := .str "red", lineColor := .str "blue",
    fillOpacity := none, strokeOpacity := none, linearGradient := none }

theorem c1_paint_decision_witness :
    (renderVector pats0 vBoth).1.countP SinkCall.isFillAndStrokeCall = 1 ∧
    (renderVector pats0 vBoth).1.countP SinkCall.isFillCall = 0 ∧
    (renderVector pats0 vBoth).1.countP SinkCall.isStrokeCall = 0 := by
  have h := (c1_paint_decision pats0 vBoth rfl).1 (by decide) (by decide)
  exact ⟨h.1, h.2.1, h.2.2.1⟩

/-- The styling prefix contains no path-construction call. -/
theorem filter_path_pre (v : VectorShape) :
    (renderVectorPre v).filter SinkCall.isPathConstruction = [] := by
  unfold renderVectorPre
  cases hd : v.dash <;> rfl

/-- The paint decision contains no path-construction call. -/
theorem filter_path_paint (c lc : JsColor) (fo so : ℚ) :
    (paintCalls c lc fo so).filter SinkCall.isPathConstruction = [] := by
  unfold paintCalls
  split
  · rfl
  · split <;> rfl

/-- A polyline creates no gradient, so no gradient stop calls. -/
theorem gradStopCalls_polyline (v : VectorShape) (pts : List Point) (cp : Bool)
    (hk : v.kind = .polyline pts cp) :
    gradStopCalls v = [] := by
  have h2 : (vectorGeometry v).2 = none := by
    unfold vectorGeometry
    rw [hk]
  unfold gradStopCalls
  rw [h2]
  cases v.linearGradient <;> rfl

/-- C2 (amended): a polyline with zero points emits no path-construction
call; a non-empty polyline emits a moveTo to its first point and a lineTo
per remaining point, and the path is closed exactly when there are at least
two points and either closing is explicitly requested via the closePath
flag or the first and last points coincide. -/
theorem c2_polyline_rendering (patterns : String → Option String) (v : VectorShape)
    (pts : List Point) (cp : Bool) (hk : v.kind = .polyline pts cp) :
    (pts = [] → (renderVector patterns v).1.filter SinkCall.isPathConstruction = []) ∧
    (∀ p rest, pts = p :: rest →
      (renderVector patterns v).1.filter SinkCall.isPathConstruction =
        SinkCall.moveTo p.x p.y :: (rest.map fun q => SinkCall.lineTo q.x q.y) ++
          (if rest ≠ [] ∧
              (cp = true ∨ (p.x = (rest.getLastD p).x ∧ p.y = (rest.getLastD p).y))
           then [SinkCall.closePath] else [])) := by
  have hx : v.kind.isX = false := by rw [hk]; rfl
  have hdec := renderVector_decomp patterns v hx
  have hstops := gradStopCalls_polyline v pts cp hk
  constructor
  · intro hpts
    subst hpts
    have hgeom : (vectorGeometry v).1 = [] := by
      unfold vectorGeometry
      rw [hk]
    rw [hdec, hgeom, hstops]
    simp [filter_path_pre, filter_path_paint]
  · intro p rest hpts
    subst hpts
    have hgeom : (vectorGeometry v).1 =
        [SinkCall.moveTo p.x p.y] ++ (rest.map fun q => SinkCall.lineTo q.x q.y) ++
          (if (decide (rest.length > 0) &&
               (cp || ((p.x == (rest.getLastD p).x) && (p.y == (rest.getLastD p).y)))) = true
           then [SinkCall.closePath] else []) := by
      unfold vectorGeometry
      rw [hk]
    have hmap : (rest.map fun q => SinkCall.lineTo q.x q.y).filter
        SinkCall.isPathConstruction = rest.map fun q => SinkCall.lineTo q.x q.y :=
      List.filter_eq_self.mpr fun c hc => by
        rcases List.mem_map.1 hc with ⟨q, _, rfl⟩
        rfl
    rw [hdec, hgeom, hstops]
    simp only [List.filter_append, filter_path_pre, filter_path_paint, List.filter_nil,
      List.nil_append, List.append_nil, hmap]
    have hcond : ((decide (rest.length > 0) &&
        (cp || ((p.x == (rest.getLastD p).x) && (p.y == (rest.getLastD p).y)))) = true) ↔
        (rest ≠ [] ∧
          (cp = true ∨ (p.x = (rest.getLastD p).x ∧ p.y = (rest.getLastD p).y))) := by
      simp [List.length_pos]
    by_cases hp : rest ≠ [] ∧
        (cp = true ∨ (p.x = (rest.getLastD p).x ∧ p.y = (rest.getLastD p).y))
    · rw [if_pos hp, if_pos (hcond.2 hp)]
      rfl
    · rw [if_neg hp, if_neg (fun h => hp (hcond.1 h))]
      rfl

/-- A single-point polyline that explicitly requests closing. -/
def polyOne : VectorShape :=
  { kind := .polyline [⟨0, 0⟩] true, lineWidth := none, dash := none, lineJoin := none,
    lineCap := none, color := .undef, lineColor := .undef,
    fillOpacity := none, strokeOpacity := none, linearGradient := none }

/-- C2 counterexample: a one-point polyline with the closePath flag set
(whose first and last points also trivially coincide) emits a moveTo but no
closePath call, contradicting "closed exactly when closing is explicitly
requested or the first and last points coincide". -/
theorem c2_single_point_counterexample :
    polyOne.kind = VKind.polyline [⟨0, 0⟩] true ∧
    (renderVector pats0 polyOne).1.filter SinkCall.isPathConstruction =
      [SinkCall.moveTo 0 0] ∧
    (renderVector pats0 polyOne).1.countP (fun c => c == SinkCall.closePath) = 0 := by
  refine ⟨rfl, ?_, ?_⟩ <;> rfl

/-- Decidable equality for `Except`, used to evaluate concrete render
results in witnesses. -/
def exceptDecEq {ε α : Type} [DecidableEq ε] [DecidableEq α] :
    DecidableEq (Except ε α)
  | .error e, .error f =>
      if h : e = f then .isTrue (h ▸ rfl)
      else .isFalse fun hc => h (Except.error.inj hc)
  | .error _, .ok _ => .isFalse fun hc => Except.noConfusion hc
  | .ok _, .error _ => .isFalse fun hc => Except.noConfusion hc
  | .ok x, .ok y =>
      if h : x = y then .isTrue (h ▸ rfl)
      else .isFalse fun hc => h (Except.ok.inj hc)

instance {ε α : Type} [DecidableEq ε] [DecidableEq α] : DecidableEq (Except ε α) :=
  exceptDecEq

theorem except_bind_ok {α β : Type} (a : α) (f : α → Except String β) :
    (Except.ok a >>= f) = f a := rfl

theorem except_bind_error {α β : Type} (e : String) (f : α → Except String β) :
    ((Except.error e : Except String α) >>= f) = Except.error e := rfl

theorem except_pure {α : Type} (a : α) : (pure a : Except String α) = Except.ok a := rfl

/-- `inlineFrame` is reflexive. -/
theorem inlineFrame_refl (i : Inline) : inlineFrame i i := rfl

/-- `inlineFrame` composes. -/
theorem inlineFrame_trans {a b c : Inline} (h1 : inlineFrame a b) (h2 : inlineFrame b c) :
    inlineFrame a c := by
  unfold inlineFrame at *
  rw [h2, h1]

/-- Page-reference resolution changes only the inline's text, width and x. -/
theorem prepare_frame (m : MeasureFn) (ref : PageNodeRef) (i i2 : Inline)
    (h : preparePageNodeRefLine m ref i = Except.ok i2) : inlineFrame i i2 := by
  rcases href : ref.positions with _ | ps
  · rw [preparePageNodeRefLine, refPageNumber, href] at h
    exact absurd h (by simp [except_bind_error])
  · rcases ps with _ | ⟨p, rest⟩
    · rw [preparePageNodeRefLine, refPageNumber, href] at h
      exact absurd h (by simp [except_bind_error])
    · rw [preparePageNodeRefLine_eq m ref i p rest href] at h
      rcases Except.ok.inj h with rfl
      rfl

/-- Placing one inline changes only its text, width and x (and only through
page-reference resolution). -/
theorem renderInline_frame (m : MeasureFn) (x y lh d : ℚ) (i : Inline)
    (tr : List SinkCall) (i2 : Inline)
    (h : renderInline m x y lh d i = Except.ok (tr, i2)) : inlineFrame i i2 := by
  rcases href : i.pageNodeRef with _ | ref
  · simp only [renderInline, href, except_bind_ok, except_pure] at h
    injection h with h2
    injection h2 with htr hi2
    subst hi2
    exact inlineFrame_refl i
  · simp only [renderInline, href] at h
    rcases hp : preparePageNodeRefLine m ref i with e | i1 <;> rw [hp] at h
    · exact absurd h (by simp [except_bind_error])
    · simp only [except_bind_ok, except_pure] at h
      injection h with h2
      injection h2 with htr hi2
      subst hi2
      exact prepare_frame m ref i i1 hp

/-- The inline loop changes each inline only within its frame. -/
theorem renderInlines_frame (m : MeasureFn) (x y lh d : ℚ) :
    ∀ (inls : List Inline) (tr : List SinkCall) (inls2 : List Inline),
      renderInlines m x y lh d inls = Except.ok (tr, inls2) →
      List.Forall₂ inlineFrame inls inls2
  | [], tr, inls2, h => by
      simp only [renderInlines, except_pure] at h
      injection h with h2
      injection h2 with htr hi2
      subst hi2
      exact List.Forall₂.nil
  | i :: rest, tr, inls2, h => by
      simp only [renderInlines] at h
      rcases hri : renderInline m x y lh d i with e | ⟨tr1, i2⟩ <;> rw [hri] at h
      · exact absurd h (by simp [except_bind_error])
      · simp only [except_bind_ok] at h
        rcases hrs : renderInlines m x y lh d rest with e | ⟨trs, rest2⟩ <;> rw [hrs] at h
        · exact absurd h (by simp [except_bind_error])
        · simp only [except_bind_ok, except_pure] at h
          injection h with h2
          injection h2 with htr hi2
          subst hi2
          exact List.Forall₂.cons (renderInline_frame m x y lh d i tr1 i2 hri)
            (renderInlines_frame m x y lh d rest trs rest2 hrs)

/-- `renderLine` changes only the line's inlines, and each inline only
within its frame. -/
theorem renderLine_frame (m : MeasureFn) (l : Line) (tr : List SinkCall) (l2 : Line)
    (h : renderLine m l = Except.ok (tr, l2)) :
    l2 = { l with inlines := l2.inlines } ∧
    List.Forall₂ inlineFrame l.inlines l2.inlines := by
  rcases href : l.pageNodeRef with _ | ref
  · simp only [renderLine, href, except_bind_ok, except_pure] at h
    rcases hrs : renderInlines m (jsOrQ l.x 0) (jsOrQ l.y 0) l.height
        (l.height - l.ascenderHeight) l.inlines with e | ⟨trs, inls2⟩ <;> rw [hrs] at h
    · exact absurd h (by simp [except_bind_error])
    · simp only [except_bind_ok, except_pure] at h
      injection h with h2
      injection h2 with htr hl2
      have hl2inl : l2.inlines = inls2 := by rw [← hl2]
      constructor
      · rw [← hl2]
      · rw [hl2inl]
        exact renderInlines_frame m _ _ _ _ l.inlines trs inls2 hrs
  · rcases hinl : l.inlines with _ | ⟨i0, irest⟩
    · simp only [renderLine, href, hinl] at h
      rcases hr : refPageNumber ref with e | pn <;> rw [hr] at h <;>
        exact absurd h (by simp [except_bind_error])
    · simp only [renderLine, href, hinl] at h
      rcases hp : preparePageNodeRefLine m ref i0 with e | i1 <;> rw [hp] at h
      · exact absurd h (by simp [except_bind_error])
      · simp only [except_bind_ok, except_pure] at h
        rcases hrs : renderInlines m (jsOrQ l.x 0) (jsOrQ l.y 0) l.height
            (l.height - l.ascenderHeight) (i1 :: irest) with e | ⟨trs, inls2⟩ <;>
          rw [hrs] at h
        · exact absurd h (by simp [except_bind_error])
        · simp only [except_bind_ok, except_pure] at h
          injection h with h2
          injection h2 with htr hl2
          have hl2inl : l2.inlines = inls2 := by rw [← hl2]
          constructor
          · rw [← hl2]
          · rw [hl2inl]
            have hall := renderInlines_frame m _ _ _ _ (i1 :: irest) trs inls2 hrs
            rcases hall with _ | ⟨h1, hrest⟩
            exact List.Forall₂.cons
              (inlineFrame_trans (prepare_frame m ref i0 i1 hp) h1) hrest

/-- The substituted shape keeps every field but the color, and the color
changes only under a gradient request or a pattern marker. -/
theorem renderVector_frame (patterns : String → Option String) (v v2 : VectorShape)
    (tr : List SinkCall) (h : renderVector patterns v = (tr, v2)) :
    vectorFrame v v2 := by
  cases hk : v.kind <;> simp only [renderVector, hk] at h
  case xvec ix =>
    injection h with htr hv2
    subst hv2
    exact ⟨rfl, fun hc => absurd rfl hc⟩
  all_goals
    unfold renderVectorStd at h
    injection h with htr hv2
    subst hv2
    constructor
    · unfold afterGradient
      split <;> rfl
    · intro hne
      by_cases hg : v.linearGradient.isSome
      · exact Or.inl hg
      · right
        rcases hcol : v.color with _ | s | ⟨a, b, cc, dd, st⟩ | ⟨n, sc⟩ | ⟨hnd, sc⟩
        all_goals first
          | exact ⟨_, _, rfl⟩
          | (exfalso
             apply hne
             show resolveColor patterns (afterGradient v).color = v.color
             have hag : afterGradient v = v := by
               unfold afterGradient
               rcases hlg : v.linearGradient with _ | cols
               · rfl
               · exact absurd (by rw [hlg]; rfl) hg
             rw [hag, hcol]
             rfl)

/-- C9 (amended): the render pass leaves every item unchanged except the
page-number-reference mutation of inlines (text, width, x) and the
fill-color substitution of vector shapes (gradient object or resolved
pattern). -/
theorem c9_render_frame (m : MeasureFn) (patterns : String → Option String)
    (it : RenderItem) (tr : List SinkCall) (it2 : RenderItem)
    (h : renderItem m patterns it = Except.ok (tr, it2)) : itemFrame it it2 := by
  cases it
  case vector v =>
    simp only [renderItem] at h
    rcases hv : renderVector patterns v with ⟨trv, v2⟩
    rw [hv] at h
    simp only [except_pure] at h
    injection h with h2
    injection h2 with htr hit2
    subst hit2
    exact renderVector_frame patterns v v2 trv hv
  case line l =>
    simp only [renderItem] at h
    rcases hl : renderLine m l with e | ⟨trl, l2⟩ <;> rw [hl] at h
    · exact absurd h (by simp [except_bind_error])
    · simp only [except_bind_ok, except_pure] at h
      injection h with h2
      injection h2 with htr hit2
      subst hit2
      exact renderLine_frame m l trl l2 hl
  all_goals
    simp only [renderItem, except_pure] at h
    injection h with h2
    first
      | (injection h2 with htr hit2; subst hit2; try rfl)
      | injection h2

/-- A line shape whose fill color is a pattern marker. -/
def vPat : VectorShape :=
  { kind := .line 0 0 1 1, lineWidth := none, dash := none, lineJoin := none,
    lineCap := none, color := .patternRef "stripe" "red", lineColor := .undef,
    fillOpacity := none, strokeOpacity := none, linearGradient := none }

/-- C9 counterexample: rendering a shape whose fill color is a pattern
marker rewrites the shape's color field in place (marker replaced by the
resolved pattern pair), so the render pass does mutate the tree outside the
page-number-reference mutation. -/
theorem c9_color_mutation_counterexample :
    (renderVector pats0 vPat).2.color ≠ vPat.color ∧
    (renderVector pats0 vPat).2.color = JsColor.patternObj none "red" :=
  ⟨fun h => JsColor.noConfusion h, rfl⟩

/-- The pattern-marker shape after rendering: only its color changed. -/
def vPatOut : VectorShape := { vPat with color := JsColor.patternObj none "red" }

theorem c9_render_frame_witness :
    itemFrame (RenderItem.vector vPat) (RenderItem.vector vPatOut) :=
  c9_render_frame m0 pats0 (RenderItem.vector vPat) (renderVector pats0 vPat).1
    (RenderItem.vector vPatOut) rfl

/-- A three-point polyline whose first and last points coincide, without
the closePath flag. -/
def polyTri : VectorShape :=
  { kind := .polyline [⟨0, 0⟩, ⟨1, 0⟩, ⟨0, 0⟩] false, lineWidth := none, dash := none,
    lineJoin := none, lineCap := none, color := .undef, lineColor := .undef,
    fillOpacity := none, strokeOpacity := none, linearGradient := none }

theorem c2_polyline_rendering_witness :
    (renderVector pats0 polyTri).1.filter SinkCall.isPathConstruction =
      [SinkCall.moveTo 0 0, SinkCall.lineTo 1 0, SinkCall.lineTo 0 0,
       SinkCall.closePath] := by
  have h := (c2_polyline_rendering pats0 polyTri [⟨0, 0⟩, ⟨1, 0⟩, ⟨0, 0⟩] false rfl).2
      ⟨0, 0⟩ [⟨1, 0⟩, ⟨0, 0⟩] rfl
  rw [h, if_pos ⟨by decide, Or.inr ⟨rfl, rfl⟩⟩]
  rfl

/-- C8: when a page has a watermark, the page's trace is exactly the trace
of its items followed by the watermark's trace: every Sink call derived
from a RenderItem precedes every watermark call. -/
theorem c8_watermark_last (m : MeasureFn) (patterns : String → Option String)
    (total : ℚ) (o : DocOptions) (page : Page) (r : ℕ) (wm : Watermark)
    (tr : List SinkCall) (ps : List ℚ) (r2 : ℕ) (pg2 : Page)
    (hwm : page.watermark = some wm)
    (h : renderOnePage m patterns total o page r = Except.ok (tr, ps, r2, pg2)) :
    ∃ itemsTr itemsPs itemsR items2,
      renderItems m patterns total page.items r =
        Except.ok (itemsTr, itemsPs, itemsR, items2) ∧
      tr = itemsTr ++ renderWatermark wm o.sizeW o.sizeH ∧
      pg2 = { page with items := items2 } := by
  simp only [renderOnePage, hwm] at h
  rcases hri : renderItems m patterns total page.items r with e | ⟨trI, psI, rI, itemsI⟩ <;>
    rw [hri] at h
  · exact absurd h (by simp [except_bind_error])
  · simp only [except_bind_ok, except_pure] at h
    injection h with h1
    injection h1 with htr hrest
    injection hrest with hps hrest2
    injection hrest2 with hr hpg
    exact ⟨trI, psI, rI, itemsI, rfl, htr.symm, by rw [← hpg, hwm]⟩

/-- A concrete watermark fixture. -/
def wmEx : Watermark :=
  { text := "DRAFT", font := ⟨"Roboto", 718⟩, fontSize := 50, color := "gray",
    opacity := 1, angle := 45, sizeW := 200, sizeH := 60 }

/-- A one-item page carrying the watermark fixture. -/
def pageWm : Page :=
  { pageSize := { width := 595, height := 842, orientation := .portrait },
    items := [RenderItem.unknownItem], watermark := some wmEx }

theorem c8_watermark_last_witness :
    ∃ itemsTr itemsPs itemsR items2,
      renderItems m0 pats0 1 pageWm.items 0 =
        Except.ok (itemsTr, itemsPs, itemsR, items2) ∧
      ([] : List SinkCall) ++ renderWatermark wmEx 595 842 =
        itemsTr ++ renderWatermark wmEx 595 842 ∧
      pageWm = { pageWm with items := items2 } :=
  c8_watermark_last m0 pats0 1 ⟨595, 842⟩ pageWm 0 wmEx
    ([] ++ renderWatermark wmEx 595 842) [1 / 1] 1 pageWm rfl rfl

/-- The item loop reports one progress fraction per item, counting on from
its starting count. -/
theorem renderItems_progress (m : MeasureFn) (patterns : String → Option String)
    (total : ℚ) :
    ∀ (items : List RenderItem) (r : ℕ) (tr : List SinkCall) (ps : List ℚ)
      (rEnd : ℕ) (items2 : List RenderItem),
      renderItems m patterns total items r = Except.ok (tr, ps, rEnd, items2) →
      ps = (List.range items.length).map (fun k => ((r + k + 1 : ℕ) : ℚ) / total) ∧
      rEnd = r + items.length
  | [], r, tr, ps, rEnd, items2, h => by
      simp only [renderItems, except_pure] at h
      injection h with h1
      injection h1 with htr h2
      injection h2 with hps h3
      injection h3 with hr hit
      exact ⟨hps.symm, hr.symm⟩
  | it :: rest, r, tr, ps, rEnd, items2, h => by
      simp only [renderItems] at h
      rcases hit : renderItem m patterns it with e | ⟨tr1, it2⟩ <;> rw [hit] at h
      · exact absurd h (by simp [except_bind_error])
      · simp only [except_bind_ok] at h
        rcases hrs : renderItems m patterns total rest (r + 1) with e | ⟨trs, pss, rE, rest2⟩ <;>
          rw [hrs] at h
        · exact absurd h (by simp [except_bind_error])
        · simp only [except_bind_ok, except_pure] at h
          injection h with h1
          injection h1 with htr h2
          injection h2 with hps h3
          injection h3 with hr hit2
          have ih := renderItems_progress m patterns total rest (r + 1) trs pss rE rest2 hrs
          constructor
          · rw [← hps, ih.1, List.length_cons, List.range_succ_eq_map,
              List.map_cons, List.map_map]
            congr 1
            all_goals
              first
                | (norm_num; done)
                | (intro a ha; push_cast; ring)
                | (refine List.map_congr_left fun a ha => ?_;
                   simp only [Function.comp_apply]; push_cast; ring)
          · rw [← hr, ih.2, List.length_cons]
            omega

/-- The page body reports exactly its items' fractions. -/
theorem renderOnePage_progress (m : MeasureFn) (patterns : String → Option String)
    (total : ℚ) (o : DocOptions) (page : Page) (r : ℕ) (tr : List SinkCall)
    (ps : List ℚ) (r2 : ℕ) (pg2 : Page)
    (h : renderOnePage m patterns total o page r = Except.ok (tr, ps, r2, pg2)) :
    ps = (List.range page.items.length).map (fun k => ((r + k + 1 : ℕ) : ℚ) / total) ∧
    r2 = r + page.items.length := by
  simp only [renderOnePage] at h
  rcases hri : renderItems m patterns total page.items r with e | ⟨trI, psI, rI, itemsI⟩ <;>
    rw [hri] at h
  · exact absurd h (by simp [except_bind_error])
  · simp only [except_bind_ok, except_pure] at h
    injection h with h1
    injection h1 with htr h2
    injection h2 with hps h3
    injection h3 with hr hpg
    have := renderItems_progress m patterns total page.items r trI psI rI itemsI hri
    exact ⟨hps ▸ this.1, hr ▸ this.2⟩

/-- The tail page loop reports one fraction per item over its pages,
counting on from its starting count. -/
theorem renderRest_progress (m : MeasureFn) (patterns : String → Option String)
    (total : ℚ) :
    ∀ (pages : List Page) (o : DocOptions) (r : ℕ) (tr : List SinkCall)
      (pss : List ℚ) (oEnd : DocOptions) (rEnd : ℕ) (pages2 : List Page),
      renderRest m patterns total pages o r =
        Except.ok (tr, pss, oEnd, rEnd, pages2) →
      pss = (List.range ((pages.map fun p => p.items.length).sum)).map
              (fun k => ((r + k + 1 : ℕ) : ℚ) / total) ∧
      rEnd = r + (pages.map fun p => p.items.length).sum
  | [], o, r, tr, pss, oEnd, rEnd, pages2, h => by
      simp only [renderRest, except_pure] at h
      injection h with h1
      injection h1 with htr h2
      injection h2 with hps h3
      injection h3 with ho h4
      injection h4 with hr hpg
      exact ⟨hps.symm, hr.symm⟩
  | pg :: rest, o, r, tr, pss, oEnd, rEnd, pages2, h => by
      simp only [renderRest] at h
      rcases hop : renderOnePage m patterns total
          (updatePageOrientationInOptions pg o) pg r with e | ⟨tr1, ps1, r1, pg2⟩ <;>
        rw [hop] at h
      · exact absurd h (by simp [except_bind_error])
      · simp only [except_bind_ok] at h
        rcases hrr : renderRest m patterns total rest
            (updatePageOrientationInOptions pg o) r1 with
          e | ⟨trs, pss1, oE, rE, rest2⟩ <;> rw [hrr] at h
        · exact absurd h (by simp [except_bind_error])
        · simp only [except_bind_ok, except_pure] at h
          injection h with h1
          injection h1 with htr h2
          injection h2 with hps h3
          injection h3 with ho h4
          injection h4 with hr hpg
          have h1p := renderOnePage_progress m patterns total _ pg r tr1 ps1 r1 pg2 hop
          have ihp := renderRest_progress m patterns total rest _ r1 trs pss1 oE rE rest2 hrr
          constructor
          · rw [← hps, h1p.1, ihp.1, h1p.2, List.map_cons, List.sum_cons,
              List.range_add, List.map_append, List.map_map]
            congr 1
            all_goals
              first
                | (norm_num; done)
                | (intro a ha; push_cast; ring)
                | (refine List.map_congr_left fun a ha => ?_;
                   simp only [Function.comp_apply]; push_cast; ring)
          · rw [← hr, ihp.2, h1p.2, List.map_cons, List.sum_cons]
            omega

/-- The fraction sequence `1/n, …, n/n` is monotone. -/
theorem progress_chain (n : ℕ) :
    List.Chain' (· ≤ ·)
      ((List.range n).map fun k => ((k + 1 : ℕ) : ℚ) / (n : ℚ)) := by
  rcases n with _ | n2
  · simp
  · rw [List.chain'_map, List.chain'_range_succ]
    intro m hm
    apply div_le_div_of_nonneg_right
    · exact_mod_cast Nat.le_succ (m + 1)
    · positivity

/-- The fraction sequence ends in `n/n = 1` when `n > 0`. -/
theorem progress_last (n : ℕ) (hn : 0 < n) :
    ((List.range n).map fun k => ((k + 1 : ℕ) : ℚ) / (n : ℚ)).getLast? = some 1 := by
  rcases n with _ | n2
  · exact absurd hn (by omega)
  · rw [List.range_succ, List.map_append]
    simp only [List.map_cons, List.map_nil]
    rw [List.getLast?_concat]
    congr 1
    exact div_self (by exact_mod_cast Nat.succ_ne_zero n2)

/-- Summing the rational casts of the per-page item counts equals the cast
of the natural sum. -/
theorem qsum_cast (l : List Page) :
    (l.map fun p => ((p.items.length : ℕ) : ℚ)).sum =
      (((l.map fun p => p.items.length).sum : ℕ) : ℚ) := by
  induction l with
  | nil => simp
  | cons p rest ih => simp [ih]

/-- C6: with a progress callback supplied, the callback receives, after the
k-th item over the whole document, exactly (k+1)/total where total is the
up-front sum of per-page item counts; the sequence is monotone
non-decreasing, has one entry per item, and ends at 1. -/
theorem c6_progress_callback (m : MeasureFn) (patterns : String → Option String)
    (o0 : DocOptions) (pages : List Page) (out : RenderOutput)
    (h : renderPages m patterns true o0 pages = Except.ok out) :
    out.progress = (List.range ((pages.map fun p => p.items.length).sum)).map
        (fun k => ((k + 1 : ℕ) : ℚ) /
          ((((pages.map fun p => p.items.length).sum : ℕ)) : ℚ)) ∧
    List.Chain' (· ≤ ·) out.progress ∧
    (0 < (pages.map fun p => p.items.length).sum → out.progress.getLast? = some 1) ∧
    out.progress.length = (pages.map fun p => p.items.length).sum := by
  have key : out.progress = (List.range ((pages.map fun p => p.items.length).sum)).map
      (fun k => ((k + 1 : ℕ) : ℚ) /
        ((((pages.map fun p => p.items.length).sum : ℕ)) : ℚ)) := by
    rcases pages with _ | ⟨pg0, rest⟩
    · simp only [renderPages, except_pure] at h
      injection h with h1
      rw [← h1]
      rfl
    · simp only [renderPages, if_true] at h
      rcases hop : renderOnePage m patterns
          (↑((pg0 :: rest).map fun p => p.items.length).sum) o0 pg0 0 with
        e | ⟨tr0, ps0, r0, pg0n⟩ <;> rw [hop] at h
      · exact absurd h (by simp [except_bind_error])
      · simp only [except_bind_ok] at h
        rcases hrr : renderRest m patterns
            (↑((pg0 :: rest).map fun p => p.items.length).sum) rest o0 r0 with
          e | ⟨trs, pss, oE, rE, restN⟩ <;> rw [hrr] at h
        · exact absurd h (by simp [except_bind_error])
        · simp only [except_bind_ok, except_pure] at h
          injection h with h1
          have hpr : out.progress = ps0 ++ pss := by rw [← h1]
          have h0p := renderOnePage_progress m patterns _ o0 pg0 0 tr0 ps0 r0 pg0n hop
          have hrp := renderRest_progress m patterns _ rest o0 r0 trs pss oE rE restN hrr
          rw [hpr, h0p.1, hrp.1, h0p.2]
          simp only [qsum_cast, List.map_cons, List.sum_cons]
          rw [List.range_add, List.map_append, List.map_map]
          congr 1
          all_goals
            first
              | (norm_num; done)
              | (intro a ha; push_cast; ring)
              | (refine List.map_congr_left fun a ha => ?_;
                 simp only [Function.comp_apply]; push_cast; ring)
  refine ⟨key, ?_, ?_, ?_⟩
  · rw [key]
    exact progress_chain _
  · intro hn
    rw [key]
    exact progress_last _ hn
  · rw [key, List.length_map, List.length_range]

/-- The default configured page size used in witnesses (A4 portrait). -/
def o595 : DocOptions := ⟨595, 842⟩

/-- A portrait page with two items and no watermark. -/
def pageA : Page :=
  { pageSize := { width := 595, height := 842, orientation := .portrait },
    items := [RenderItem.unknownItem, RenderItem.unknownItem], watermark := none }

/-- A portrait page with three items and no watermark. -/
def pageB : Page :=
  { pageSize := { width := 595, height := 842, orientation := .portrait },
    items := [RenderItem.unknownItem, RenderItem.unknownItem, RenderItem.unknownItem],
    watermark := none }

/-- A two-page document with 2 and 3 items. -/
def pagesEx : List Page := [pageA, pageB]

theorem c6_progress_callback_witness :
    (renderPages m0 pats0 true o595 pagesEx).map RenderOutput.progress =
      Except.ok [1 / 5, 2 / 5, 3 / 5, 4 / 5, 5 / 5] := by
  rcases hk : renderPages m0 pats0 true o595 pagesEx with e | out
  · exact Except.noConfusion hk
  · have h := (c6_progress_callback m0 pats0 o595 pagesEx out hk).1
    simp only [Except.map]
    rw [h]
    norm_num [pagesEx, pageA, pageB, List.range_succ]

/-- Is a call anything but a physical-page request? -/
def SinkCall.notAddPage : SinkCall → Bool
  | .addPage _ _ => false
  | _ => true

/-- A trace all of whose calls are not addPage contributes no page sizes. -/
theorem addPageSizes_eq_nil (tr : List SinkCall) (h : tr.all SinkCall.notAddPage = true) :
    addPageSizes tr = [] := by
  refine List.filterMap_eq_nil_iff.mpr fun c hc => ?_
  have hcp := List.all_eq_true.1 h c hc
  cases c <;> first | rfl | simp [SinkCall.notAddPage] at hcp

/-- The styling prefix, geometry switch and gradient stops request no
physical page. -/
theorem vector_core_all_notAddPage (v : VectorShape) :
    (renderVectorPre v ++ (vectorGeometry v).1 ++ gradStopCalls v).all
      SinkCall.notAddPage = true := by
  simp only [List.all_append, Bool.and_eq_true]
  refine ⟨⟨?_, ?_⟩, ?_⟩
  · unfold renderVectorPre
    cases hd : v.dash <;> rfl
  · unfold vectorGeometry
    rcases hk : v.kind with ⟨x, y, r1, r2⟩ | ⟨x, y, w, h, r⟩ | ⟨x1, y1, x2, y2⟩ |
      ⟨pts, cp⟩ | d | ix | _
    · cases hgl : v.linearGradient.isSome <;> rfl
    · rcases hr : r with _ | rv
      · cases hgl : v.linearGradient.isSome <;> rfl
      · by_cases hrv : rv = 0 <;> cases hgl : v.linearGradient.isSome <;>
          simp only [if_pos, if_neg, hrv, hgl] <;> rfl
    · rfl
    · rcases pts with _ | ⟨p, rest⟩
      · rfl
      · refine List.all_eq_true.mpr fun c hc => ?_
        rcases List.mem_append.1 hc with hml | hcl
        · rcases List.mem_append.1 hml with hm | hl
          · rcases List.mem_cons.1 hm with rfl | hnil
            · rfl
            · exact absurd hnil (List.not_mem_nil c)
          · rcases List.mem_map.1 hl with ⟨q, hq, rfl⟩
            rfl
        · split at hcl
          · rcases List.mem_cons.1 hcl with rfl | hnil
            · rfl
            · exact absurd hnil (List.not_mem_nil c)
          · exact absurd hcl (List.not_mem_nil c)
    · rfl
    · rfl
    · rfl
  · unfold gradStopCalls
    split
    · refine List.all_eq_true.mpr fun c hc => ?_
      rcases List.mem_map.1 hc with ⟨sc, hsc, rfl⟩
      rfl
    · rfl

/-- The paint decision requests no physical page. -/
theorem paintCalls_all_notAddPage (c lc : JsColor) (fo so : ℚ) :
    (paintCalls c lc fo so).all SinkCall.notAddPage = true := by
  unfold paintCalls
  split
  · rfl
  · split <;> rfl

/-- Extended vector instructions request no physical page. -/
theorem renderXVector_all_notAddPage (ix : XInstr) :
    (renderXVector ix).all SinkCall.notAddPage = true := by
  cases ix <;> simp only [renderXVector] <;> first | rfl | (split <;> rfl)

/-- `renderVector` requests no physical page. -/
theorem renderVector_all_notAddPage (patterns : String → Option String)
    (v : VectorShape) :
    ((renderVector patterns v).1).all SinkCall.notAddPage = true := by
  rcases hk : v.kind <;> simp only [renderVector, hk]
  case xvec ix => exact renderXVector_all_notAddPage ix
  all_goals
    unfold renderVectorStd
    dsimp only
    simp only [List.all_append, Bool.and_eq_true]
    have hcore := vector_core_all_notAddPage v
    simp only [List.all_append, Bool.and_eq_true] at hcore
    exact ⟨hcore, paintCalls_all_notAddPage _ _ _ _⟩

/-- One inline's glyph calls request no physical page. -/
theorem renderInline_all_notAddPage (m : MeasureFn) (x y lh d : ℚ) (i : Inline)
    (tr : List SinkCall) (i2 : Inline)
    (h : renderInline m x y lh d i = Except.ok (tr, i2)) :
    tr.all SinkCall.notAddPage = true := by
  rcases href : i.pageNodeRef with _ | ref
  · simp only [renderInline, href, except_bind_ok, except_pure] at h
    injection h with h2
    injection h2 with htr hi2
    rw [← htr]
    simp only [List.all_append, Bool.and_eq_true]
    exact ⟨rfl, by split <;> rfl⟩
  · simp only [renderInline, href] at h
    rcases hp : preparePageNodeRefLine m ref i with e | i1 <;> rw [hp] at h
    · exact absurd h (by simp [except_bind_error])
    · simp only [except_bind_ok, except_pure] at h
      injection h with h2
      injection h2 with htr hi2
      rw [← htr]
      simp only [List.all_append, Bool.and_eq_true]
      exact ⟨rfl, by split <;> rfl⟩

/-- The inline loop requests no physical page. -/
theorem renderInlines_all_notAddPage (m : MeasureFn) (x y lh d : ℚ) :
    ∀ (inls : List Inline) (tr : List SinkCall) (inls2 : List Inline),
      renderInlines m x y lh d inls = Except.ok (tr, inls2) →
      tr.all SinkCall.notAddPage = true
  | [], tr, inls2, h => by
      simp only [renderInlines, except_pure] at h
      injection h with h2
      injection h2 with htr hi2
      rw [← htr]
      rfl
  | i :: rest, tr, inls2, h => by
      simp only [renderInlines] at h
      rcases hri : renderInline m x y lh d i with e | ⟨tr1, i2⟩ <;> rw [hri] at h
      · exact absurd h (by simp [except_bind_error])
      · simp only [except_bind_ok] at h
        rcases hrs : renderInlines m x y lh d rest with e | ⟨trs, rest2⟩ <;> rw [hrs] at h
        · exact absurd h (by simp [except_bind_error])
        · simp only [except_bind_ok, except_pure] at h
          injection h with h2
          injection h2 with htr hi2
          rw [← htr]
          simp only [List.all_append, Bool.and_eq_true]
          exact ⟨renderInline_all_notAddPage m x y lh d i tr1 i2 hri,
            renderInlines_all_notAddPage m x y lh d rest trs rest2 hrs⟩

/-- `renderLine` requests no physical page. -/
theorem renderLine_all_notAddPage (m : MeasureFn) (l : Line) (tr : List SinkCall)
    (l2 : Line) (h : renderLine m l = Except.ok (tr, l2)) :
    tr.all SinkCall.notAddPage = true := by
  rcases href : l.pageNodeRef with _ | ref
  · simp only [renderLine, href, except_bind_ok, except_pure] at h
    rcases hrs : renderInlines m (jsOrQ l.x 0) (jsOrQ l.y 0) l.height
        (l.height - l.ascenderHeight) l.inlines with e | ⟨trs, inls2⟩ <;> rw [hrs] at h
    · exact absurd h (by simp [except_bind_error])
    · simp only [except_bind_ok, except_pure] at h
      injection h with h2
      injection h2 with htr hl2
      rw [← htr]
      simp only [List.all_cons, List.all_append, Bool.and_eq_true]
      exact ⟨⟨rfl, renderInlines_all_notAddPage m _ _ _ _ l.inlines trs inls2 hrs⟩, rfl, rfl⟩
  · rcases hinl : l.inlines with _ | ⟨i0, irest⟩
    · simp only [renderLine, href, hinl] at h
      rcases hr : refPageNumber ref with e | pn <;> rw [hr] at h <;>
        exact absurd h (by simp [except_bind_error])
    · simp only [renderLine, href, hinl] at h
      rcases hp : preparePageNodeRefLine m ref i0 with e | i1 <;> rw [hp] at h
      · exact absurd h (by simp [except_bind_error])
      · simp only [except_bind_ok, except_pure] at h
        rcases hrs : renderInlines m (jsOrQ l.x 0) (jsOrQ l.y 0) l.height
            (l.height - l.ascenderHeight) (i1 :: irest) with e | ⟨trs, inls2⟩ <;>
          rw [hrs] at h
        · exact absurd h (by simp [except_bind_error])
        · simp only [except_bind_ok, except_pure] at h
          injection h with h2
          injection h2 with htr hl2
          rw [← htr]
          simp only [List.all_cons, List.all_append, Bool.and_eq_true]
          exact ⟨⟨rfl, renderInlines_all_notAddPage m _ _ _ _ (i1 :: irest) trs inls2 hrs⟩,
            rfl, rfl⟩

/-- `renderImage` requests no physical page. -/
theorem renderImage_all_notAddPage (img : Image) :
    (renderImage img).all SinkCall.notAddPage = true := by
  unfold renderImage renderXImage docTransformRotate
  repeat' split
  all_goals rfl

/-- `renderItem` requests no physical page. -/
theorem renderItem_all_notAddPage (m : MeasureFn) (patterns : String → Option String)
    (it : RenderItem) (tr : List SinkCall) (it2 : RenderItem)
    (h : renderItem m patterns it = Except.ok (tr, it2)) :
    tr.all SinkCall.notAddPage = true := by
  cases it
  case vector v =>
    simp only [renderItem] at h
    rcases hv : renderVector patterns v with ⟨trv, v2⟩
    rw [hv] at h
    simp only [except_pure] at h
    injection h with h2
    injection h2 with htr hit2
    rw [← htr]
    have := renderVector_all_notAddPage patterns v
    rw [hv] at this
    exact this
  case line l =>
    simp only [renderItem] at h
    rcases hl : renderLine m l with e | ⟨trl, l2⟩ <;> rw [hl] at h
    · exact absurd h (by simp [except_bind_error])
    · simp only [except_bind_ok, except_pure] at h
      injection h with h2
      injection h2 with htr hit2
      rw [← htr]
      exact renderLine_all_notAddPage m l trl l2 hl
  case image img =>
    simp only [renderItem, except_pure] at h
    injection h with h2
    injection h2 with htr hit2
    rw [← htr]
    exact renderImage_all_notAddPage img
  all_goals
    simp only [renderItem, except_pure] at h
    injection h with h2
    injection h2 with htr hit2
    rw [← htr]
    rfl

/-- The item loop requests no physical page. -/
theorem renderItems_all_notAddPage (m : MeasureFn) (patterns : String → Option String)
    (total : ℚ) :
    ∀ (items : List RenderItem) (r : ℕ) (tr : List SinkCall) (ps : List ℚ)
      (rEnd : ℕ) (items2 : List RenderItem),
      renderItems m patterns total items r = Except.ok (tr, ps, rEnd, items2) →
      tr.all SinkCall.notAddPage = true
  | [], r, tr, ps, rEnd, items2, h => by
      simp only [renderItems, except_pure] at h
      injection h with h1
      injection h1 with htr h2
      rw [← htr]
      rfl
  | it :: rest, r, tr, ps, rEnd, items2, h => by
      simp only [renderItems] at h
      rcases hit : renderItem m patterns it with e | ⟨tr1, it2⟩ <;> rw [hit] at h
      · exact absurd h (by simp [except_bind_error])
      · simp only [except_bind_ok] at h
        rcases hrs : renderItems m patterns total rest (r + 1) with
          e | ⟨trs, pss, rE, rest2⟩ <;> rw [hrs] at h
        · exact absurd h (by simp [except_bind_error])
        · simp only [except_bind_ok, except_pure] at h
          injection h with h1
          injection h1 with htr h2
          rw [← htr]
          simp only [List.all_append, Bool.and_eq_true]
          exact ⟨renderItem_all_notAddPage m patterns it tr1 it2 hit,
            renderItems_all_notAddPage m patterns total rest (r + 1) trs pss rE rest2 hrs⟩

/-- One page body (items plus watermark) requests no physical page. -/
theorem renderOnePage_all_notAddPage (m : MeasureFn) (patterns : String → Option String)
    (total : ℚ) (o : DocOptions) (page : Page) (r : ℕ) (tr : List SinkCall)
    (ps : List ℚ) (r2 : ℕ) (pg2 : Page)
    (h : renderOnePage m patterns total o page r = Except.ok (tr, ps, r2, pg2)) :
    tr.all SinkCall.notAddPage = true := by
  simp only [renderOnePage] at h
  rcases hri : renderItems m patterns total page.items r with e | ⟨trI, psI, rI, itemsI⟩ <;>
    rw [hri] at h
  · exact absurd h (by simp [except_bind_error])
  · simp only [except_bind_ok, except_pure] at h
    injection h with h1
    injection h1 with htr h2
    rw [← htr]
    simp only [List.all_append, Bool.and_eq_true]
    refine ⟨renderItems_all_notAddPage m patterns total page.items r trI psI rI itemsI hri,
      ?_⟩
    cases page.watermark <;> rfl

/-- The tail page loop requests exactly one physical page per page, at the
orientation-updated configured size. -/
theorem renderRest_sizes (m : MeasureFn) (patterns : String → Option String)
    (total : ℚ) :
    ∀ (pages : List Page) (o : DocOptions) (r : ℕ) (tr : List SinkCall)
      (pss : List ℚ) (oEnd : DocOptions) (rEnd : ℕ) (pages2 : List Page),
      renderRest m patterns total pages o r =
        Except.ok (tr, pss, oEnd, rEnd, pages2) →
      addPageSizes tr = configuredSizesFrom o pages
  | [], o, r, tr, pss, oEnd, rEnd, pages2, h => by
      simp only [renderRest, except_pure] at h
      injection h with h1
      injection h1 with htr h2
      rw [← htr]
      rfl
  | pg :: rest, o, r, tr, pss, oEnd, rEnd, pages2, h => by
      simp only [renderRest] at h
      rcases hop : renderOnePage m patterns total
          (updatePageOrientationInOptions pg o) pg r with e | ⟨tr1, ps1, r1, pg2⟩ <;>
        rw [hop] at h
      · exact absurd h (by simp [except_bind_error])
      · simp only [except_bind_ok] at h
        rcases hrr : renderRest m patterns total rest
            (updatePageOrientationInOptions pg o) r1 with
          e | ⟨trs, pss1, oE, rE, rest2⟩ <;> rw [hrr] at h
        · exact absurd h (by simp [except_bind_error])
        · simp only [except_bind_ok, except_pure] at h
          injection h with h1
          injection h1 with htr h2
          rw [← htr]
          show addPageSizes (SinkCall.addPage _ _ :: tr1 ++ trs) = _
          rw [show (SinkCall.addPage (updatePageOrientationInOptions pg o).sizeW
              (updatePageOrientationInOptions pg o).sizeH :: tr1 ++ trs) =
              [SinkCall.addPage (updatePageOrientationInOptions pg o).sizeW
                (updatePageOrientationInOptions pg o).sizeH] ++ (tr1 ++ trs)
            from rfl]
          rw [addPageSizes, List.filterMap_append, List.filterMap_append]
          rw [← addPageSizes, ← addPageSizes, ← addPageSizes]
          rw [addPageSizes_eq_nil tr1
            (renderOnePage_all_notAddPage m patterns total _ pg r tr1 ps1 r1 pg2 hop)]
          rw [renderRest_sizes m patterns total rest _ r1 trs pss1 oE rE rest2 hrr]
          rfl

/-- The clean per-page size recursion has one entry per page. -/
theorem configuredSizesFrom_length (o : DocOptions) (l : List Page) :
    (configuredSizesFrom o l).length = l.length := by
  induction l generalizing o with
  | nil => rfl
  | cons p rest ih => simp [configuredSizesFrom, ih]

/-- C7 (amended): for a non-empty page sequence, exactly one physical page
is requested per Page, in order; the first at the initial configured size,
and each later one at the configured size after the orientation update
(width/height swapped exactly when the page's declared orientation differs
from the orientation implied by the current configured size). -/
theorem c7_page_creation (m : MeasureFn) (patterns : String → Option String)
    (hasCb : Bool) (o0 : DocOptions) (pages : List Page) (out : RenderOutput)
    (hne : pages ≠ [])
    (h : renderPages m patterns hasCb o0 pages = Except.ok out) :
    addPageSizes out.trace = configuredSizes o0 pages ∧
    (addPageSizes out.trace).length = pages.length := by
  have key : addPageSizes out.trace = configuredSizes o0 pages := by
    rcases pages with _ | ⟨pg0, rest⟩
    · exact absurd rfl hne
    · simp only [renderPages] at h
      rcases hop : renderOnePage m patterns
          (if hasCb = true then
            ((pg0 :: rest).map fun p => (p.items.length : ℚ)).sum else 0)
          o0 pg0 0 with e | ⟨tr0, ps0, r0, pg0n⟩ <;> rw [hop] at h
      · exact absurd h (by simp [except_bind_error])
      · simp only [except_bind_ok] at h
        rcases hrr : renderRest m patterns
            (if hasCb = true then
              ((pg0 :: rest).map fun p => (p.items.length : ℚ)).sum else 0)
            rest o0 r0 with e | ⟨trs, pss, oE, rE, restN⟩ <;> rw [hrr] at h
        · exact absurd h (by simp [except_bind_error])
        · simp only [except_bind_ok, except_pure] at h
          injection h with h1
          have htr : out.trace = SinkCall.addPage o0.sizeW o0.sizeH :: tr0 ++ trs := by
            rw [← h1]
          rw [htr]
          show addPageSizes ([SinkCall.addPage o0.sizeW o0.sizeH] ++ (tr0 ++ trs)) = _
          rw [addPageSizes, List.filterMap_append, List.filterMap_append,
            ← addPageSizes, ← addPageSizes, ← addPageSizes]
          rw [addPageSizes_eq_nil tr0
              (renderOnePage_all_notAddPage m patterns _ o0 pg0 0 tr0 ps0 r0 pg0n hop),
            renderRest_sizes m patterns _ rest o0 r0 trs pss oE rE restN hrr]
          rfl
  refine ⟨key, ?_⟩
  rw [key]
  rcases pages with _ | ⟨pg0, rest⟩
  · exact absurd rfl hne
  · simp [configuredSizes, configuredSizesFrom_length]

/-- C7 counterexample: with an empty page sequence the source still issues
its unconditional initial `addPage()`, so one physical page is created for
zero Pages — "exactly one Sink page per Page" fails at the empty
sequence. -/
theorem c7_empty_pages_counterexample :
    (renderPages m0 pats0 false ⟨595, 842⟩ ([] : List Page)).map
        (fun out => (addPageSizes out.trace).length) = Except.ok 1 ∧
    ([] : List Page).length = 0 := ⟨rfl, rfl⟩

/-- An empty portrait page. -/
def pageP : Page :=
  { pageSize := { width := 595, height := 842, orientation := .portrait },
    items := [], watermark := none }

/-- An empty landscape page. -/
def pageL : Page :=
  { pageSize := { width := 842, height := 595, orientation := .landscape },
    items := [], watermark := none }

/-- Portrait, landscape, portrait. -/
def pagesPLP : List Page := [pageP, pageL, pageP]

theorem c7_page_creation_witness :
    (renderPages m0 pats0 false o595 pagesPLP).map (fun out => addPageSizes out.trace) =
      Except.ok [(595, 842), (842, 595), (595, 842)] := by
  rcases hk : renderPages m0 pats0 false o595 pagesPLP with e | out
  · exact Except.noConfusion hk
  · have h := (c7_page_creation m0 pats0 false o595 pagesPLP out (by decide) hk).1
    simp only [Except.map]
    rw [h]
    decide

end PdfMake
